import Mathlib

/-!
Verification of the Proactive-RAG-Onboarding-Agent retrieval stack.

Shallow embedding of the data model and operations of
`proactive_rag_agent` (models/metadata.py, models/source.py,
retrievers/base_retriever.py, retrievers/dual_retriever.py,
retrievers/metadata_retriever.py, retrievers/semantic_retriever.py).

Modelling conventions:
* Python `float` is modelled as `ℚ` (exact arithmetic; the checked
  properties are arithmetic identities and comparisons).
* `datetime` values are modelled as day numbers (`Int`); `datetime.now()`
  becomes an explicit `now` parameter threaded to every freshness check.
* A fallible Python operation (pydantic validation, `dict[key]` lookup,
  `raise`) is an `Except Err` value.
* Python dicts are association lists that preserve insertion order;
  `dict.update` replaces the value of an existing key in place and
  appends new keys, as in CPython.
* `collections.defaultdict(set)` is an association list whose read
  operation inserts the missing key with an empty value, mirroring the
  side effect of `__getitem__`.
-/

/-- Errors raised by the modelled code paths. -/
inductive Err where
  /-- `KeyError` from a Python `dict[key]` access on a missing key. -/
  | keyError (key : String)
  /-- `KeyError` from a `dict[idx]` access on a missing integer slot. -/
  | keyErrorSlot (slot : Nat)
  /-- `ValueError(msg)` raised explicitly by the code. -/
  | valueError (msg : String)
  /-- A pydantic validation error (field out of its declared bounds). -/
  | validationError (msg : String)
  /-- An embedding-service failure surfaced by one retrieval side. -/
  | embeddingServiceError
  /-- A search-backend failure surfaced by one retrieval side. -/
  | searchBackendError
  deriving DecidableEq, Repr

/-- A value stored in a Python metadata dict (`Dict[str, Any]` as used by
the retrievers: strings, floats and booleans). -/
inductive MetaVal where
  | s (v : String)
  | q (v : ℚ)
  | b (v : Bool)
  deriving DecidableEq, Repr

/-- `DocumentType(str, Enum)` from models/metadata.py. -/
inductive DocumentType where
  | policy | procedure | guide | manual | training | faq
  | template | form | presentation | video | other
  deriving DecidableEq, Repr

/-- The `.value` string of a `DocumentType` member. -/
def DocumentType.value : DocumentType → String
  | .policy => "policy"
  | .procedure => "procedure"
  | .guide => "guide"
  | .manual => "manual"
  | .training => "training"
  | .faq => "faq"
  | .template => "template"
  | .form => "form"
  | .presentation => "presentation"
  | .video => "video"
  | .other => "other"

/-- `AccessLevel(str, Enum)` from models/metadata.py. -/
inductive AccessLevel where
  | public | internal | confidential | restricted
  deriving DecidableEq, Repr

/-- The `access_levels` rank dict literal used by
`FilterCriteria.matches_document`. -/
def AccessLevel.rank : AccessLevel → Nat
  | .public => 0
  | .internal => 1
  | .confidential => 2
  | .restricted => 3

/-- Python `str.lower()`, per character (as `String.toLower`, but
defined over the character list so that concrete instances evaluate). -/
def strLower (s : String) : String := ⟨s.data.map Char.toLower⟩

/-- Python truthiness of an `Optional[str]`: `None` and `""` are falsy. -/
def optStrTruthy : Option String → Bool
  | none => false
  | some s => !(s == "")

/-- Python truthiness of an `Optional[int]`: `None` and `0` are falsy. -/
def optIntTruthy : Option Int → Bool
  | none => false
  | some n => !(n == 0)

/-- `DocumentMetadata` (models/metadata.py).  Fields not read by any
modelled operation (`seniority_levels`, `audience`, `version`,
`created_date`, `next_review_date`, `required_clearance`, `language`,
page/word/reading counts, `custom_metadata`) carry the same types as the
source but are plain data here. -/
structure DocumentMetadata where
  document_id : String
  title : String
  document_type : DocumentType
  description : Option String := none
  topics : List String := []
  keywords : List String := []
  department : Option String := none
  team : Option String := none
  author : Option String := none
  target_roles : List String := []
  seniority_levels : List String := []
  audience : List String := []
  version : Option String := none
  created_date : Option Int := none
  last_updated : Option Int := none
  next_review_date : Option Int := none
  access_level : AccessLevel := .internal
  required_clearance : Option String := none
  language : String := "en"
  page_count : Option Int := none
  word_count : Option Int := none
  reading_time_minutes : Option Int := none
  importance_score : ℚ := 0
  popularity_score : ℚ := 0
  tags : List String := []
  deriving DecidableEq, Repr

/-- Pydantic range validation of `DocumentMetadata` (the
`ge=0.0, le=1.0` bounds on `importance_score` and `popularity_score`),
re-run by every `DocumentMetadata(**doc_data['metadata'])` call. -/
def validateDocumentMetadata (m : DocumentMetadata) : Except Err DocumentMetadata :=
  if 0 ≤ m.importance_score ∧ m.importance_score ≤ 1 ∧
     0 ≤ m.popularity_score ∧ m.popularity_score ≤ 1 then
    .ok m
  else
    .error (.validationError "DocumentMetadata score out of range")

/-- `DocumentMetadata.is_relevant_for_role` (models/metadata.py). -/
def DocumentMetadata.is_relevant_for_role
    (m : DocumentMetadata) (role : String) (department : Option String) : Bool :=
  if m.target_roles == [] then
    true
  else if (m.target_roles.map strLower).contains (strLower role) then
    true
  else if optStrTruthy department && optStrTruthy m.department then
    strLower (department.getD "") == strLower (m.department.getD "")
  else
    false

/-- `DocumentMetadata.is_fresh` (models/metadata.py); `now` stands for
`datetime.now()` as a day number. -/
def DocumentMetadata.is_fresh (m : DocumentMetadata) (now : Int) (max_age_days : Int) : Bool :=
  match m.last_updated with
  | none => false
  | some lu => now - lu ≤ max_age_days

/-- `SourceCitation` (models/source.py); only the fields the retrievers
set are modelled with content, the rest keep their defaults. -/
structure SourceCitation where
  source_id : String
  title : String
  document_type : String
  url : Option String := none
  file_path : Option String := none
  department : Option String := none
  role_relevance : List String := []
  topics : List String := []
  page_number : Option Int := none
  «section» : Option String := none
  excerpt : Option String := none
  last_updated : Option Int := none
  relevance_score : ℚ := 0
  confidence_score : ℚ := 0
  deriving DecidableEq, Repr

/-- Pydantic construction of a `SourceCitation`: the `ge=0.0, le=1.0`
bounds on `relevance_score` and `confidence_score` are enforced, and a
value outside them raises a validation error. -/
def mkSourceCitation (c : SourceCitation) : Except Err SourceCitation :=
  if 0 ≤ c.relevance_score ∧ c.relevance_score ≤ 1 ∧
     0 ≤ c.confidence_score ∧ c.confidence_score ≤ 1 then
    .ok c
  else
    .error (.validationError "SourceCitation score out of range")

/-- `RetrievalResult` (retrievers/base_retriever.py); its
`relevance_score` is unconstrained there. -/
structure RetrievalResult where
  content : String
  source : SourceCitation
  relevance_score : ℚ
  metadata : List (String × MetaVal) := []
  deriving DecidableEq, Repr

/-- `FilterCriteria` (models/metadata.py). -/
structure FilterCriteria where
  target_role : Option String := none
  department : Option String := none
  seniority_level : Option String := none
  document_types : List DocumentType := []
  exclude_types : List DocumentType := []
  required_topics : List String := []
  preferred_topics : List String := []
  keywords : List String := []
  max_age_days : Option Int := none
  require_recent_update : Bool := false
  min_importance_score : ℚ := 0
  min_popularity_score : ℚ := 0
  max_access_level : AccessLevel := .internal
  deriving DecidableEq, Repr

/-- `FilterCriteria.matches_document` (models/metadata.py), translated
check for check, early returns and all; `now` feeds `is_fresh`. -/
def FilterCriteria.matches_document
    (f : FilterCriteria) (m : DocumentMetadata) (now : Int) : Bool :=
  if optStrTruthy f.target_role &&
      !(m.is_relevant_for_role (f.target_role.getD "") f.department) then
    false
  else if !(f.document_types == []) && !(f.document_types.contains m.document_type) then
    false
  else if f.exclude_types.contains m.document_type then
    false
  else if !(f.required_topics == []) &&
      !((f.required_topics.map strLower).any
        (fun t => (m.topics.map strLower).contains t)) then
    false
  else if optIntTruthy f.max_age_days && !(m.is_fresh now (f.max_age_days.getD 0)) then
    false
  else if m.importance_score < f.min_importance_score then
    false
  else if m.popularity_score < f.min_popularity_score then
    false
  else if f.max_access_level.rank < m.access_level.rank then
    false
  else
    true

/-- `FilterCriteria.calculate_relevance_boost` (models/metadata.py). -/
def FilterCriteria.calculate_relevance_boost
    (f : FilterCriteria) (m : DocumentMetadata) : ℚ :=
  let boost : ℚ := 0
  let boost := boost +
    (if f.preferred_topics == [] then 0 else
      (((f.preferred_topics.map strLower).countP
          (fun t => (m.topics.map strLower).contains t) : ℚ) /
        (f.preferred_topics.length : ℚ)) * (2/10))
  let boost := boost +
    (if optStrTruthy f.target_role &&
        (m.target_roles.map strLower).contains (strLower (f.target_role.getD ""))
      then 1/10 else 0)
  let boost := boost +
    (if optStrTruthy f.department && optStrTruthy m.department &&
        (strLower (f.department.getD "") == strLower (m.department.getD ""))
      then 1/10 else 0)
  min boost (5/10)

/-- Stable insertion of `a` into an accumulator already sorted by `score`
descending: `a` goes after every element whose score is `≥ score a`, as a
CPython stable `sort(key=..., reverse=True)` places it. -/
def insertDescBy (score : α → ℚ) (a : α) : List α → List α
  | [] => [a]
  | b :: t => if score b < score a then a :: b :: t else b :: insertDescBy score a t

/-- Python's stable `list.sort(key=score, reverse=True)`. -/
def sortDescBy (score : α → ℚ) (l : List α) : List α :=
  l.foldl (fun acc a => insertDescBy score a acc) []

/-- `firstDedup` lists the keys of a Python dict built by inserting the
given keys in order: each key appears once, at its first occurrence. -/
def firstDedup (l : List String) : List String :=
  l.foldl (fun acc x => if acc.contains x then acc else acc ++ [x]) []

/-- The entry a repeated `doc_results[doc_id][side] = result` assignment
leaves for a side: the last result of the side carrying `doc_id`. -/
def lookupLast (l : List RetrievalResult) (d : String) : Option RetrievalResult :=
  (l.filter (fun r => r.source.source_id == d)).getLast?

/-- `dict[k] = v` on an association list: replace in place, else append. -/
def updEntry {κ α : Type} [BEq κ] (m : List (κ × α)) (k : κ) (v : α) :
    List (κ × α) :=
  if m.any (fun p => p.fst == k) then
    m.map (fun p => if p.fst == k then (k, v) else p)
  else
    m ++ [(k, v)]

/-- `dict.update(upd)` on association lists. -/
def updDict {κ α : Type} [BEq κ] (m upd : List (κ × α)) : List (κ × α) :=
  upd.foldl (fun acc p => updEntry acc p.1 p.2) m

/-- Configuration state a successfully constructed `DualRetriever`
carries (dual_retriever.py lines 40-42). -/
structure DualRetrieverCfg where
  semantic_weight : ℚ
  metadata_weight : ℚ
  fusion_method : String
  deriving DecidableEq, Repr

/-- `DualRetriever.__init__` weight validation (dual_retriever.py lines
44-46): raises unless the weights sum to 1.0 within 0.001. -/
def DualRetriever.init (semantic_weight metadata_weight : ℚ) (fusion_method : String) :
    Except Err DualRetrieverCfg :=
  if |semantic_weight + metadata_weight - 1| > 1/1000 then
    .error (.valueError "Semantic and metadata weights must sum to 1.0")
  else
    .ok ⟨semantic_weight, metadata_weight, fusion_method⟩

/-- `DualRetriever._weighted_sum_fusion`. -/
def DualRetriever.weighted_sum_fusion (cfg : DualRetrieverCfg)
    (semantic_result metadata_result : Option RetrievalResult) : ℚ :=
  let semantic_score := match semantic_result with | some r => r.relevance_score | none => 0
  let metadata_score := match metadata_result with | some r => r.relevance_score | none => 0
  cfg.semantic_weight * semantic_score + cfg.metadata_weight * metadata_score

/-- `DualRetriever._reciprocal_rank_fusion` with its default `k = 60`;
`list.index` is the first position of an equal element, and its
`ValueError` branch contributes nothing. -/
def DualRetriever.reciprocal_rank_fusion (cfg : DualRetrieverCfg)
    (semantic_result metadata_result : Option RetrievalResult)
    (semantic_results metadata_results : List RetrievalResult) : ℚ :=
  let rrf_score : ℚ := 0
  let rrf_score := rrf_score +
    (match semantic_result with
     | none => 0
     | some r =>
       match semantic_results.findIdx? (fun x => x == r) with
       | none => 0
       | some i => cfg.semantic_weight / (60 + ((i : ℚ) + 1)))
  let rrf_score := rrf_score +
    (match metadata_result with
     | none => 0
     | some r =>
       match metadata_results.findIdx? (fun x => x == r) with
       | none => 0
       | some i => cfg.metadata_weight / (60 + ((i : ℚ) + 1)))
  rrf_score

/-- `DualRetriever._max_fusion`. -/
def DualRetriever.max_fusion
    (semantic_result metadata_result : Option RetrievalResult) : ℚ :=
  match semantic_result, metadata_result with
  | none, none => 0
  | some r, none => r.relevance_score
  | none, some r => r.relevance_score
  | some r1, some r2 => max r1.relevance_score r2.relevance_score

/-- One iteration of the `for doc_id, retriever_results in
doc_results.items()` loop of `DualRetriever._fuse_results`: fuse the two
sides' entries for `doc_id` by the configured method — an unrecognized
method raises here — and build the fused `RetrievalResult`. -/
def DualRetriever.fuse_one (cfg : DualRetrieverCfg)
    (semantic_results metadata_results : List RetrievalResult)
    (doc_id : String) : Except Err RetrievalResult := do
    let semantic_result := lookupLast semantic_results doc_id
    let metadata_result := lookupLast metadata_results doc_id
    let fused_score ←
      if cfg.fusion_method == "weighted_sum" then
        pure (weighted_sum_fusion cfg semantic_result metadata_result)
      else if cfg.fusion_method == "rrf" then
        pure (reciprocal_rank_fusion cfg semantic_result metadata_result
          semantic_results metadata_results)
      else if cfg.fusion_method == "max" then
        pure (max_fusion semantic_result metadata_result)
      else
        Except.error (.valueError ("Unknown fusion method: " ++ cfg.fusion_method))
    let base_result ← match semantic_result, metadata_result with
      | some b, _ => pure b
      | none, some b => pure b
      | none, none => Except.error (.valueError "no base result")
    let combined : List (String × MetaVal) := []
    let combined := match semantic_result with
      | some r => updDict combined r.metadata
      | none => combined
    let combined := match metadata_result with
      | some r => updDict combined r.metadata
      | none => combined
    let combined := updDict combined
      [("fusion_method", .s cfg.fusion_method),
       ("semantic_score", .q (match semantic_result with
          | some r => r.relevance_score | none => 0)),
       ("metadata_score", .q (match metadata_result with
          | some r => r.relevance_score | none => 0)),
       ("fused_score", .q fused_score),
       ("has_semantic", .b semantic_result.isSome),
       ("has_metadata", .b metadata_result.isSome)]
    pure { content := base_result.content, source := base_result.source,
           relevance_score := fused_score, metadata := combined }

/-- `DualRetriever._fuse_results`: group both sides' results by
`source.source_id` (dict insertion order, later same-side duplicates
overwriting earlier ones) and fuse each grouped document in order. -/
def DualRetriever.fuse_results (cfg : DualRetrieverCfg)
    (semantic_results metadata_results : List RetrievalResult) :
    Except Err (List RetrievalResult) :=
  let ids := firstDedup
    ((semantic_results.map (fun r => r.source.source_id)) ++
     (metadata_results.map (fun r => r.source.source_id)))
  ids.mapM (DualRetriever.fuse_one cfg semantic_results metadata_results)

/-- The greedy diversity loop of `DualRetriever._final_ranking`:
`counts` is the `source_counts` defaultdict, `len` the current
`len(diverse_results)`; a result is admitted when its title's count is
below `max_per_source` or fewer than `top_k // 2` results are admitted,
and the loop breaks once `top_k` are admitted. -/
def greedyDiverse (top_k max_per_source : Nat) :
    List RetrievalResult → (String → Nat) → Nat → List RetrievalResult
  | [], _, _ => []
  | r :: rest, counts, len =>
    let t := r.source.title
    if counts t < max_per_source ∨ len < top_k / 2 then
      if top_k ≤ len + 1 then [r]
      else r :: greedyDiverse top_k max_per_source rest
        (fun s => if s = t then counts s + 1 else counts s) (len + 1)
    else
      greedyDiverse top_k max_per_source rest counts len

/-- `DualRetriever._final_ranking`: stable sort by fused score
descending, then the greedy diversity loop with
`max_per_source = max(1, top_k // 3)`. -/
def DualRetriever.final_ranking (results : List RetrievalResult) (top_k : Nat) :
    List RetrievalResult :=
  greedyDiverse top_k (max 1 (top_k / 3))
    (sortDescBy (fun r => r.relevance_score) results) (fun _ => 0) 0

/-- `DualRetriever.retrieve` (dual_retriever.py lines 93-107): the two
sides' outcomes are the results of `asyncio.gather` without
`return_exceptions`, so an exception from either side propagates and
aborts the whole call; on success the sides are fused and ranked. -/
def DualRetriever.retrieve (cfg : DualRetrieverCfg) (top_k : Nat)
    (semantic_outcome metadata_outcome : Except Err (List RetrievalResult)) :
    Except Err (List RetrievalResult) := do
  let semantic_results ← semantic_outcome
  let metadata_results ← metadata_outcome
  let fused ← fuse_results cfg semantic_results metadata_results
  pure (final_ranking fused top_k)

lemma mem_insertDescBy (score : α → ℚ) (a x : α) (l : List α) :
    x ∈ insertDescBy score a l ↔ x = a ∨ x ∈ l := by
  induction l with
  | nil => simp [insertDescBy]
  | cons b t ih =>
    simp only [insertDescBy]
    by_cases hc : score b < score a
    · simp [if_pos hc, List.mem_cons]
    · simp only [if_neg hc, List.mem_cons, ih]
      tauto

lemma pairwise_insertDescBy (score : α → ℚ) (a : α) (l : List α)
    (h : l.Pairwise (fun x y => score y ≤ score x)) :
    (insertDescBy score a l).Pairwise (fun x y => score y ≤ score x) := by
  induction l with
  | nil => simp [insertDescBy]
  | cons b t ih =>
    simp only [insertDescBy]
    by_cases hc : score b < score a
    · rw [if_pos hc]
      refine List.pairwise_cons.mpr ⟨?_, h⟩
      intro y hy
      rcases List.mem_cons.mp hy with rfl | hy
      · exact le_of_lt hc
      · exact le_trans ((List.pairwise_cons.mp h).1 y hy) (le_of_lt hc)
    · rw [if_neg hc]
      have h' := List.pairwise_cons.mp h
      refine List.pairwise_cons.mpr ⟨?_, ih h'.2⟩
      intro y hy
      rcases (mem_insertDescBy score a y t).mp hy with rfl | hy
      · exact le_of_not_lt hc
      · exact h'.1 y hy

lemma perm_insertDescBy (score : α → ℚ) (a : α) (l : List α) :
    (insertDescBy score a l).Perm (a :: l) := by
  induction l with
  | nil => simp [insertDescBy]
  | cons b t ih =>
    simp only [insertDescBy]
    by_cases hc : score b < score a
    · rw [if_pos hc]
    · rw [if_neg hc]
      exact ((ih.cons b).trans (List.Perm.swap a b t))

lemma pairwise_foldl_insertDescBy (score : α → ℚ) :
    ∀ (l acc : List α), acc.Pairwise (fun x y => score y ≤ score x) →
      (l.foldl (fun acc a => insertDescBy score a acc) acc).Pairwise
        (fun x y => score y ≤ score x) := by
  intro l
  induction l with
  | nil => intro acc h; exact h
  | cons a t ih =>
    intro acc h
    exact ih _ (pairwise_insertDescBy score a acc h)

lemma sortDescBy_pairwise (score : α → ℚ) (l : List α) :
    (sortDescBy score l).Pairwise (fun x y => score y ≤ score x) :=
  pairwise_foldl_insertDescBy score l [] (by simp)

lemma perm_foldl_insertDescBy (score : α → ℚ) :
    ∀ (l acc : List α),
      (l.foldl (fun acc a => insertDescBy score a acc) acc).Perm (acc ++ l) := by
  intro l
  induction l with
  | nil => intro acc; simp
  | cons a t ih =>
    intro acc
    refine (ih (insertDescBy score a acc)).trans ?_
    refine (List.Perm.append_right t (perm_insertDescBy score a acc)).trans ?_
    exact List.perm_middle.symm.trans (by simp)

lemma sortDescBy_perm (score : α → ℚ) (l : List α) :
    (sortDescBy score l).Perm l := by
  simpa using perm_foldl_insertDescBy score l []

lemma greedyDiverse_sublist (top_k mp : Nat) :
    ∀ (rest : List RetrievalResult) (counts : String → Nat) (len : Nat),
      (greedyDiverse top_k mp rest counts len).Sublist rest := by
  intro rest
  induction rest with
  | nil => intro counts len; simp [greedyDiverse]
  | cons r t ih =>
    intro counts len
    simp only [greedyDiverse]
    split
    · split
      · exact (List.nil_sublist t).cons₂ r
      · exact (ih _ _).cons₂ r
    · exact (ih _ _).cons r

lemma greedyDiverse_length (top_k mp : Nat) :
    ∀ (rest : List RetrievalResult) (counts : String → Nat) (len : Nat),
      len < top_k → len + (greedyDiverse top_k mp rest counts len).length ≤ top_k := by
  intro rest
  induction rest with
  | nil => intro counts len h; simpa [greedyDiverse] using Nat.le_of_lt h
  | cons r t ih =>
    intro counts len h
    simp only [greedyDiverse]
    split
    · split
      · next hstop => simpa using h
      · next hgo =>
        have := ih (fun s => if s = r.source.title then counts s + 1 else counts s)
          (len + 1) (Nat.lt_of_not_le (by simpa using hgo))
        simp only [List.length_cons]
        omega
    · exact ih counts len h

lemma greedyDiverse_cap (top_k mp : Nat) :
    ∀ (rest : List RetrievalResult) (counts : String → Nat) (len : Nat) (t : String),
      t ∈ ((greedyDiverse top_k mp rest counts len).drop (top_k / 2 - len)).map
        (fun r => r.source.title) →
      counts t + (greedyDiverse top_k mp rest counts len).countP
        (fun r => r.source.title == t) ≤ mp := by
  intro rest
  induction rest with
  | nil => intro counts len t h; simp [greedyDiverse] at h
  | cons r rest ih =>
    intro counts len t h
    simp only [greedyDiverse] at h ⊢
    by_cases h1 : counts r.source.title < mp ∨ len < top_k / 2
    · rw [if_pos h1] at h ⊢
      by_cases h2 : top_k ≤ len + 1
      · rw [if_pos h2] at h ⊢
        rcases Nat.eq_zero_or_pos (top_k / 2 - len) with hq | hq
        · rw [hq, List.drop_zero] at h
          simp only [List.map_cons, List.map_nil, List.mem_singleton] at h
          subst h
          have hle : top_k / 2 ≤ len := Nat.sub_eq_zero_iff_le.mp hq
          have hcnt : counts r.source.title < mp := by
            rcases h1 with h1 | h1
            · exact h1
            · omega
          rw [List.countP_cons]
          simp only [List.countP_nil, beq_self_eq_true, if_true]
          omega
        · obtain ⟨n, hn⟩ : ∃ n, top_k / 2 - len = n + 1 :=
            ⟨_, (Nat.succ_pred_eq_of_pos hq).symm⟩
          rw [hn] at h
          simp at h
      · rw [if_neg h2] at h ⊢
        by_cases hql : top_k / 2 ≤ len
        · have hz : top_k / 2 - len = 0 := Nat.sub_eq_zero_of_le hql
          have hz' : top_k / 2 - (len + 1) = 0 := Nat.sub_eq_zero_of_le (by omega)
          rw [hz, List.drop_zero] at h
          simp only [List.map_cons, List.mem_cons] at h
          by_cases hmem : t ∈ (greedyDiverse top_k mp rest
              (fun s => if s = r.source.title then counts s + 1 else counts s)
              (len + 1)).map (fun r => r.source.title)
          · have hIH := ih (fun s => if s = r.source.title then counts s + 1 else counts s)
              (len + 1) t (by rw [hz', List.drop_zero]; exact hmem)
            rw [List.countP_cons]
            by_cases ht : t = r.source.title
            · subst ht
              simp at hIH
              simp only [beq_self_eq_true, if_true]
              omega
            · simp only [if_neg ht] at hIH
              have hbeq : (r.source.title == t) = false :=
                beq_eq_false_iff_ne.mpr (Ne.symm ht)
              rw [hbeq]
              simp only [Bool.false_eq_true, if_false]
              omega
          · have ht : t = r.source.title := by
              rcases h with h | h
              · exact h
              · exact absurd h hmem
            subst ht
            have hcnt : counts r.source.title < mp := by
              rcases h1 with h1 | h1
              · exact h1
              · omega
            have hzero : (greedyDiverse top_k mp rest
                (fun s => if s = r.source.title then counts s + 1 else counts s)
                (len + 1)).countP (fun x => x.source.title == r.source.title) = 0 := by
              rw [List.countP_eq_zero]
              intro a ha hpa
              exact hmem (List.mem_map.mpr ⟨a, ha, eq_of_beq hpa⟩)
            rw [List.countP_cons, hzero]
            simp only [beq_self_eq_true, if_true]
            omega
        · have hn : top_k / 2 - len = (top_k / 2 - (len + 1)) + 1 := by omega
          rw [hn, List.drop_succ_cons] at h
          have hIH := ih (fun s => if s = r.source.title then counts s + 1 else counts s)
            (len + 1) t h
          rw [List.countP_cons]
          by_cases ht : t = r.source.title
          · subst ht
            simp at hIH
            simp only [beq_self_eq_true, if_true]
            omega
          · simp only [if_neg ht] at hIH
            have hbeq : (r.source.title == t) = false :=
              beq_eq_false_iff_ne.mpr (Ne.symm ht)
            rw [hbeq]
            simp only [Bool.false_eq_true, if_false]
            omega
    · rw [if_neg h1] at h ⊢
      exact ih counts len t h

/-- A concrete citation used by the concrete-input theorems. -/
def srcA : SourceCitation :=
  { source_id := "d1", title := "T1", document_type := "guide",
    relevance_score := 1/2, confidence_score := 1/2 }

/-- A concrete retrieval result used by the concrete-input theorems. -/
def resA : RetrievalResult :=
  { content := "c1", source := srcA, relevance_score := 1/2 }

/-- C3 counterexample: with `top_k = 0` and one fused result, the code
still admits one result (`max_per_source = max(1, 0) = 1`, the title
count `0 < 1` admits it before the `len >= top_k` break fires), so the
output has length `1 > top_k`, refuting "admits at most top_k results"
for every `top_k`. -/
theorem claim_C3_counterexample :
    ¬((DualRetriever.final_ranking [resA] 0).length ≤ 0) := by decide

/-- C3 (amended to `top_k ≥ 1`): `_final_ranking` sorts the fused
results by score descending and greedily admits at most `top_k` of them;
the output is a subsequence of the sorted list (hence itself sorted
descending, drawn from the input), and any source title that still
occurs at an output position at or beyond `top_k / 2` occurs at most
`max(1, top_k / 3)` times in the whole output — results admitted while
fewer than `top_k / 2` were admitted being exempt from that cap. -/
theorem claim_C3_final_ranking (results : List RetrievalResult) (top_k : Nat)
    (h : 1 ≤ top_k) :
    (DualRetriever.final_ranking results top_k).length ≤ top_k ∧
    (DualRetriever.final_ranking results top_k).Pairwise
      (fun x y => y.relevance_score ≤ x.relevance_score) ∧
    (DualRetriever.final_ranking results top_k).Sublist
      (sortDescBy (fun r => r.relevance_score) results) ∧
    (∀ r ∈ DualRetriever.final_ranking results top_k, r ∈ results) ∧
    ∀ t, t ∈ ((DualRetriever.final_ranking results top_k).drop (top_k / 2)).map
        (fun r => r.source.title) →
      (DualRetriever.final_ranking results top_k).countP
        (fun r => r.source.title == t) ≤ max 1 (top_k / 3) := by
  have hsub : (DualRetriever.final_ranking results top_k).Sublist
      (sortDescBy (fun r => r.relevance_score) results) :=
    greedyDiverse_sublist top_k (max 1 (top_k / 3)) _ _ 0
  refine ⟨?_, ?_, hsub, ?_, ?_⟩
  · have := greedyDiverse_length top_k (max 1 (top_k / 3))
      (sortDescBy (fun r => r.relevance_score) results) (fun _ => 0) 0
      (Nat.lt_of_lt_of_le Nat.zero_lt_one h)
    simpa [DualRetriever.final_ranking] using this
  · exact List.Pairwise.sublist hsub (sortDescBy_pairwise (fun r => r.relevance_score) results)
  · intro r hr
    exact (sortDescBy_perm (fun r => r.relevance_score) results).mem_iff.mp
      (hsub.subset hr)
  · intro t ht
    have := greedyDiverse_cap top_k (max 1 (top_k / 3))
      (sortDescBy (fun r => r.relevance_score) results) (fun _ => 0) 0 t
      (by simpa [DualRetriever.final_ranking] using ht)
    simpa [DualRetriever.final_ranking] using this

/-- C3 witness: the amended theorem applied at one fused result and
`top_k = 1`. -/
theorem claim_C3_witness :
    (DualRetriever.final_ranking [resA] 1).length ≤ 1 :=
  (claim_C3_final_ranking [resA] 1 (by decide)).1

/-- C5: constructing the dual retriever succeeds exactly when the two
weights sum to 1.0 within the 0.001 tolerance, and raises a `ValueError`
exactly when the sum lies outside `[0.999, 1.001]`. -/
theorem claim_C5_init_weights (semantic_weight metadata_weight : ℚ)
    (fusion_method : String) :
    ((∃ cfg, DualRetriever.init semantic_weight metadata_weight fusion_method = .ok cfg) ↔
      |semantic_weight + metadata_weight - 1| ≤ 1/1000) ∧
    ((∃ e, DualRetriever.init semantic_weight metadata_weight fusion_method = .error e) ↔
      (semantic_weight + metadata_weight < 999/1000 ∨
       1001/1000 < semantic_weight + metadata_weight)) := by
  unfold DualRetriever.init
  by_cases h : |semantic_weight + metadata_weight - 1| > 1/1000
  · rw [if_pos h]
    constructor
    · constructor
      · rintro ⟨cfg, hcfg⟩
        exact absurd hcfg (by simp)
      · intro hle
        exact absurd h (not_lt.mpr hle)
    · constructor
      · intro _
        rcases lt_abs.mp h with h1 | h1
        · right; linarith
        · left; linarith
      · intro _
        exact ⟨_, rfl⟩
  · rw [if_neg h]
    have hle := not_lt.mp h
    have habs := abs_le.mp hle
    constructor
    · exact iff_of_true ⟨_, rfl⟩ hle
    · constructor
      · rintro ⟨e, he⟩
        exact absurd he (by simp)
      · rintro (h1 | h1) <;> linarith [habs.1, habs.2]


/-- C1 counterexample: the semantic side fails with an embedding-service
error while the metadata side succeeds with one result, and `retrieve`
propagates the error instead of returning the metadata side's fused
results (`asyncio.gather` is called without `return_exceptions=True`). -/
theorem claim_C1_counterexample :
    DualRetriever.retrieve ⟨6/10, 4/10, "weighted_sum"⟩ 10
      (.error .embeddingServiceError) (.ok [resA]) = .error .embeddingServiceError := rfl

/-- C1 (amended): a failure of either side aborts the whole `retrieve`
call with that error — one-sided failures are not degraded to empty
result sets. -/
theorem claim_C1_one_side_failure (cfg : DualRetrieverCfg) (top_k : Nat) (e : Err)
    (metadata_outcome : Except Err (List RetrievalResult))
    (semantic_results : List RetrievalResult) :
    DualRetriever.retrieve cfg top_k (.error e) metadata_outcome = .error e ∧
    DualRetriever.retrieve cfg top_k (.ok semantic_results) (.error e) = .error e :=
  ⟨rfl, rfl⟩

lemma foldl_dedup_ext :
    ∀ (l acc : List String), ∃ ext,
      l.foldl (fun acc x => if acc.contains x then acc else acc ++ [x]) acc = acc ++ ext := by
  intro l
  induction l with
  | nil => intro acc; exact ⟨[], by simp⟩
  | cons x t ih =>
    intro acc
    by_cases hc : acc.contains x
    · obtain ⟨ext, hext⟩ := ih acc
      exact ⟨ext, by simp only [List.foldl_cons, if_pos hc]; exact hext⟩
    · obtain ⟨ext, hext⟩ := ih (acc ++ [x])
      refine ⟨[x] ++ ext, ?_⟩
      simp only [List.foldl_cons, if_neg hc]
      rw [hext, List.append_assoc]

lemma firstDedup_cons (x : String) (t : List String) :
    ∃ rest, firstDedup (x :: t) = x :: rest := by
  unfold firstDedup
  obtain ⟨ext, hext⟩ := foldl_dedup_ext t [x]
  exact ⟨ext, by simpa using hext⟩

/-- C6 counterexample: with an unrecognized fusion policy but both
sides empty (an empty corpus), `retrieve` returns the empty list
without raising — the unknown-policy `ValueError` sits inside the
per-document fusion loop, which never runs. -/
theorem claim_C6_counterexample :
    DualRetriever.retrieve ⟨6/10, 4/10, "bogus"⟩ 10 (.ok []) (.ok []) = .ok [] := rfl

/-- C6 (amended): with a fusion policy that is none of `weighted_sum`,
`rrf`, `max`, every `retrieve` call whose two sides contribute at least
one result raises the unknown-fusion-method `ValueError`; only when both
sides are empty does the call return (the empty list). -/
theorem claim_C6_unknown_policy (semantic_weight metadata_weight : ℚ)
    (fusion_method : String) (top_k : Nat)
    (semantic_results metadata_results : List RetrievalResult)
    (h1 : fusion_method ≠ "weighted_sum") (h2 : fusion_method ≠ "rrf")
    (h3 : fusion_method ≠ "max")
    (hne : semantic_results ≠ [] ∨ metadata_results ≠ []) :
    DualRetriever.retrieve ⟨semantic_weight, metadata_weight, fusion_method⟩ top_k
      (.ok semantic_results) (.ok metadata_results) =
    .error (.valueError ("Unknown fusion method: " ++ fusion_method)) := by
  have hids : ∃ x rest,
      firstDedup ((semantic_results.map (fun r => r.source.source_id)) ++
        (metadata_results.map (fun r => r.source.source_id))) = x :: rest := by
    rcases hne with hne | hne
    · obtain ⟨r, t, rfl⟩ := List.exists_cons_of_ne_nil hne
      obtain ⟨rest, hrest⟩ := firstDedup_cons r.source.source_id
        ((t.map (fun r => r.source.source_id)) ++
         (metadata_results.map (fun r => r.source.source_id)))
      exact ⟨r.source.source_id, rest, by simpa using hrest⟩
    · rcases hsem : semantic_results with _ | ⟨r, t⟩
      · obtain ⟨r2, t2, rfl⟩ := List.exists_cons_of_ne_nil hne
        obtain ⟨rest, hrest⟩ := firstDedup_cons r2.source.source_id
          (t2.map (fun r => r.source.source_id))
        exact ⟨r2.source.source_id, rest, by simpa using hrest⟩
      · obtain ⟨rest, hrest⟩ := firstDedup_cons r.source.source_id
          ((t.map (fun r => r.source.source_id)) ++
           (metadata_results.map (fun r => r.source.source_id)))
        exact ⟨r.source.source_id, rest, by simpa using hrest⟩
  obtain ⟨x, rest, hids⟩ := hids
  show (do
    let fused ← DualRetriever.fuse_results _ semantic_results metadata_results
    pure (DualRetriever.final_ranking fused top_k) :
      Except Err (List RetrievalResult)) = _
  unfold DualRetriever.fuse_results DualRetriever.fuse_one
  rw [hids, List.mapM_cons]
  have hb1 : (fusion_method == "weighted_sum") = false := beq_eq_false_iff_ne.mpr h1
  have hb2 : (fusion_method == "rrf") = false := beq_eq_false_iff_ne.mpr h2
  have hb3 : (fusion_method == "max") = false := beq_eq_false_iff_ne.mpr h3
  simp only [hb1, hb2, hb3]
  rfl

/-- C6 witness: the amended theorem at a one-result semantic side and
the policy name `bogus`. -/
theorem claim_C6_witness :
    DualRetriever.retrieve ⟨6/10, 4/10, "bogus"⟩ 10 (.ok [resA]) (.ok []) =
      .error (.valueError ("Unknown fusion method: " ++ "bogus")) :=
  claim_C6_unknown_policy (6/10) (4/10) "bogus" 10 [resA] []
    (by decide) (by decide) (by decide) (Or.inl (by simp))

lemma mem_foldl_dedup :
    ∀ (l acc : List String) (x : String),
      x ∈ l.foldl (fun acc y => if acc.contains y then acc else acc ++ [y]) acc ↔
        x ∈ acc ∨ x ∈ l := by
  intro l
  induction l with
  | nil => intro acc x; simp
  | cons a t ih =>
    intro acc x
    by_cases hc : acc.contains a
    · rw [List.foldl_cons, if_pos hc, ih]
      constructor
      · rintro (hx | hx)
        · exact Or.inl hx
        · exact Or.inr (List.mem_cons_of_mem a hx)
      · rintro (hx | hx)
        · exact Or.inl hx
        · rcases List.mem_cons.mp hx with rfl | hx
          · exact Or.inl (by simpa using hc)
          · exact Or.inr hx
    · rw [List.foldl_cons, if_neg hc, ih]
      simp [List.mem_append, List.mem_cons]
      tauto

lemma mem_firstDedup (x : String) (l : List String) :
    x ∈ firstDedup l ↔ x ∈ l := by
  unfold firstDedup
  rw [mem_foldl_dedup]
  simp

lemma lookupLast_eq_some (l : List RetrievalResult) (d : String) (r : RetrievalResult)
    (h : lookupLast l d = some r) : r ∈ l ∧ r.source.source_id = d := by
  unfold lookupLast at h
  have hm := List.mem_of_getLast?_eq_some h
  have hm2 := List.mem_filter.mp hm
  exact ⟨hm2.1, by simpa using hm2.2⟩

lemma lookupLast_isSome_of_mem (l : List RetrievalResult) (d : String)
    (h : d ∈ l.map (fun r => r.source.source_id)) : ∃ r, lookupLast l d = some r := by
  unfold lookupLast
  obtain ⟨r, hr, hid⟩ := List.mem_map.mp h
  have hne : l.filter (fun r => r.source.source_id == d) ≠ [] := by
    intro hnil
    have := List.filter_eq_nil_iff.mp hnil r hr
    simp [hid] at this
  obtain ⟨a, ha⟩ := Option.isSome_iff_exists.mp (List.getLast?_isSome.mpr hne)
  exact ⟨a, ha⟩

lemma lookupLast_eq_find (l : List RetrievalResult) (d : String)
    (h : (l.map (fun r => r.source.source_id)).Nodup) :
    lookupLast l d = l.find? (fun r => r.source.source_id == d) := by
  induction l with
  | nil => rfl
  | cons r t ih =>
    simp only [List.map_cons, List.nodup_cons] at h
    unfold lookupLast
    by_cases hr : (r.source.source_id == d) = true
    · have hid : r.source.source_id = d := by simpa using hr
      have hemp : t.filter (fun x => x.source.source_id == d) = [] := by
        rw [List.filter_eq_nil_iff]
        intro a ha hpa
        exact h.1 (List.mem_map.mpr ⟨a, ha, by rw [eq_of_beq hpa, hid]⟩)
      rw [List.filter_cons_of_pos (p := fun x : RetrievalResult => x.source.source_id == d) hr, hemp,
          List.find?_cons_of_pos (p := fun x : RetrievalResult => x.source.source_id == d) t hr]
      rfl
    · rw [List.filter_cons_of_neg (p := fun x : RetrievalResult => x.source.source_id == d) hr,
          List.find?_cons_of_neg (p := fun x : RetrievalResult => x.source.source_id == d) t hr]
      have := ih h.2
      unfold lookupLast at this
      exact this

/-- The spec's per-side score `s(d)` / `m(d)`: the relevance score the
side assigns to document `d`, taken as 0 when the side lacks `d`. -/
def sideScore (l : List RetrievalResult) (d : String) : ℚ :=
  match l.find? (fun r => r.source.source_id == d) with
  | some r => r.relevance_score
  | none => 0

lemma mapM_ok_forall2 {α β : Type} (P : α → β → Prop) (f : α → Except Err β) :
    ∀ (l : List α), (∀ a ∈ l, ∃ b, f a = .ok b ∧ P a b) →
      ∃ out, l.mapM f = .ok out ∧ List.Forall₂ P l out := by
  intro l
  induction l with
  | nil => intro _; exact ⟨[], rfl, List.Forall₂.nil⟩
  | cons a t ih =>
    intro h
    obtain ⟨b, hb, hPb⟩ := h a (List.mem_cons_self a t)
    obtain ⟨out, hout, hF⟩ := ih (fun x hx => h x (List.mem_cons_of_mem a hx))
    refine ⟨b :: out, ?_, List.Forall₂.cons hPb hF⟩
    rw [List.mapM_cons, hb, hout]
    rfl

lemma forall2_mem_of_mem_right {α β : Type} {P : α → β → Prop} :
    ∀ {l : List α} {out : List β}, List.Forall₂ P l out →
      ∀ b ∈ out, ∃ a ∈ l, P a b := by
  intro l out h
  induction h with
  | nil => intro b hb; cases hb
  | cons hP hF ih =>
    intro b hb
    rcases List.mem_cons.mp hb with rfl | hb
    · exact ⟨_, List.mem_cons_self _ _, hP⟩
    · obtain ⟨a, ha, hPa⟩ := ih b hb
      exact ⟨a, List.mem_cons_of_mem _ ha, hPa⟩

lemma forall2_mem_of_mem_left {α β : Type} {P : α → β → Prop} :
    ∀ {l : List α} {out : List β}, List.Forall₂ P l out →
      ∀ a ∈ l, ∃ b ∈ out, P a b := by
  intro l out h
  induction h with
  | nil => intro a ha; cases ha
  | cons hP hF ih =>
    intro a ha
    rcases List.mem_cons.mp ha with rfl | ha
    · exact ⟨_, List.mem_cons_self _ _, hP⟩
    · obtain ⟨b, hb, hPb⟩ := ih a ha
      exact ⟨b, List.mem_cons_of_mem _ hb, hPb⟩

lemma fuse_one_weighted_ok (sw mw : ℚ) (sem meta : List RetrievalResult) (d : String)
    (hd : d ∈ sem.map (fun r => r.source.source_id) ∨
          d ∈ meta.map (fun r => r.source.source_id)) :
    ∃ r, DualRetriever.fuse_one ⟨sw, mw, "weighted_sum"⟩ sem meta d = .ok r ∧
      r.source.source_id = d ∧
      r.relevance_score = DualRetriever.weighted_sum_fusion ⟨sw, mw, "weighted_sum"⟩
        (lookupLast sem d) (lookupLast meta d) := by
  unfold DualRetriever.fuse_one
  rcases hs : lookupLast sem d with _ | b
  · rcases hm : lookupLast meta d with _ | b2
    · exfalso
      rcases hd with hd | hd
      · obtain ⟨r, hr⟩ := lookupLast_isSome_of_mem sem d hd
        rw [hs] at hr
        cases hr
      · obtain ⟨r, hr⟩ := lookupLast_isSome_of_mem meta d hd
        rw [hm] at hr
        cases hr
    · refine ⟨_, rfl, ?_, rfl⟩
      simpa using (lookupLast_eq_some meta d b2 hm).2
  · rcases hm : lookupLast meta d with _ | b2
    · refine ⟨_, rfl, ?_, rfl⟩
      simpa using (lookupLast_eq_some sem d b hs).2
    · refine ⟨_, rfl, ?_, rfl⟩
      simpa using (lookupLast_eq_some sem d b hs).2

/-- C2: under the `weighted_sum` policy the fusion succeeds, every fused
result's score is `w_s * s(d) + w_m * m(d)` for its document `d` (a side
missing `d` contributing 0), and every document id from either side
appears among the fused results.  Each side is assumed to carry distinct
document ids, as the retrievers produce. -/
theorem claim_C2_weighted_sum (sw mw : ℚ) (sem meta : List RetrievalResult)
    (hs : (sem.map (fun r => r.source.source_id)).Nodup)
    (hm : (meta.map (fun r => r.source.source_id)).Nodup) :
    ∃ fused, DualRetriever.fuse_results ⟨sw, mw, "weighted_sum"⟩ sem meta = .ok fused ∧
      (∀ r ∈ fused, r.relevance_score =
        sw * sideScore sem r.source.source_id + mw * sideScore meta r.source.source_id) ∧
      (∀ d, (d ∈ sem.map (fun r => r.source.source_id) ∨
             d ∈ meta.map (fun r => r.source.source_id)) →
        d ∈ fused.map (fun r => r.source.source_id)) := by
  have hcond : ∀ d ∈ firstDedup
      ((sem.map (fun r => r.source.source_id)) ++
       (meta.map (fun r => r.source.source_id))),
      ∃ r, DualRetriever.fuse_one ⟨sw, mw, "weighted_sum"⟩ sem meta d = .ok r ∧
        (r.source.source_id = d ∧
         r.relevance_score = sw * sideScore sem d + mw * sideScore meta d) := by
    intro d hd
    have hd' : d ∈ sem.map (fun r => r.source.source_id) ∨
        d ∈ meta.map (fun r => r.source.source_id) :=
      List.mem_append.mp ((mem_firstDedup d _).mp hd)
    obtain ⟨r, hfr, hid, hscore⟩ := fuse_one_weighted_ok sw mw sem meta d hd'
    refine ⟨r, hfr, hid, ?_⟩
    rw [hscore, lookupLast_eq_find sem d hs, lookupLast_eq_find meta d hm]
    rcases hf1 : sem.find? (fun r => r.source.source_id == d) with _ | r1 <;>
      rcases hf2 : meta.find? (fun r => r.source.source_id == d) with _ | r2 <;>
        simp [DualRetriever.weighted_sum_fusion, sideScore, hf1, hf2]
  obtain ⟨out, hout, hF⟩ := mapM_ok_forall2 _ _ _ hcond
  refine ⟨out, hout, ?_, ?_⟩
  · intro r hr
    obtain ⟨d, _, hPr⟩ := forall2_mem_of_mem_right hF r hr
    rw [hPr.1]
    exact hPr.2
  · intro d hd
    have hd2 : d ∈ firstDedup
        ((sem.map (fun r => r.source.source_id)) ++
         (meta.map (fun r => r.source.source_id))) :=
      (mem_firstDedup d _).mpr (List.mem_append.mpr hd)
    obtain ⟨r, hr, hPr⟩ := forall2_mem_of_mem_left hF d hd2
    exact List.mem_map.mpr ⟨r, hr, hPr.1⟩

/-- A metadata-side result for the same document id as `resA`. -/
def srcB : SourceCitation :=
  { source_id := "d1", title := "T1", document_type := "guide",
    relevance_score := 8/10, confidence_score := 1/2 }

/-- Concrete metadata-side retrieval result sharing `resA`'s document. -/
def resB : RetrievalResult :=
  { content := "c1", source := srcB, relevance_score := 8/10 }

/-- C2 witness: the theorem applied to one semantic and one metadata
result for the same document. -/
theorem claim_C2_witness :
    ∃ fused, DualRetriever.fuse_results ⟨6/10, 4/10, "weighted_sum"⟩ [resA] [resB] =
        .ok fused ∧
      (∀ r ∈ fused, r.relevance_score =
        (6/10) * sideScore [resA] r.source.source_id +
        (4/10) * sideScore [resB] r.source.source_id) ∧
      (∀ d, (d ∈ [resA].map (fun r => r.source.source_id) ∨
             d ∈ [resB].map (fun r => r.source.source_id)) →
        d ∈ fused.map (fun r => r.source.source_id)) :=
  claim_C2_weighted_sum (6/10) (4/10) [resA] [resB] (by decide) (by decide)

/-- Filter criteria naming a required keyword, all other axes default. -/
def fcKeyword : FilterCriteria := { keywords := ["kubernetes"] }

/-- A document with no keywords at all (and nothing else restricted). -/
def mdPlain : DocumentMetadata :=
  { document_id := "d1", title := "T1", document_type := .guide }

/-- C7 counterexample: `matches_document` ignores the `keywords` filter
axis entirely — a criteria requiring the keyword `kubernetes` still
matches a document with no keywords, so a disqualifying keywords axis
does not make `matches_document` return false. -/
theorem claim_C7_counterexample :
    FilterCriteria.matches_document fcKeyword mdPlain 0 = true ∧
    fcKeyword.keywords = ["kubernetes"] ∧ mdPlain.keywords = [] := by decide

/-- C7 (amended): `matches_document` returns true exactly when the
eight axes it actually checks all pass — role targeting, allowed
document types, excluded document types, required topics, freshness,
minimum importance, minimum popularity and maximum access level; the
required-keywords axis is not among them (it is enforced only by the
metadata retriever's inverted keyword index). -/
theorem claim_C7_matches_document (f : FilterCriteria) (m : DocumentMetadata) (now : Int) :
    f.matches_document m now = true ↔
      ((optStrTruthy f.target_role = true →
          m.is_relevant_for_role (f.target_role.getD "") f.department = true) ∧
       (f.document_types ≠ [] → f.document_types.contains m.document_type = true) ∧
       f.exclude_types.contains m.document_type = false ∧
       (f.required_topics ≠ [] →
          (f.required_topics.map strLower).any
            (fun t => (m.topics.map strLower).contains t) = true) ∧
       (optIntTruthy f.max_age_days = true →
          m.is_fresh now (f.max_age_days.getD 0) = true) ∧
       f.min_importance_score ≤ m.importance_score ∧
       f.min_popularity_score ≤ m.popularity_score ∧
       m.access_level.rank ≤ f.max_access_level.rank) := by
  unfold FilterCriteria.matches_document
  constructor
  · intro h
    split_ifs at h with h1 h2 h3 h4 h5 h6 h7 h8
    any_goals cases h
    push_neg at h6 h7 h8
    refine ⟨?_, ?_, ?_, ?_, ?_, h6, h7, Nat.le_of_not_lt ?_⟩
    · intro ht
      cases hb : m.is_relevant_for_role (f.target_role.getD "") f.department
      · exact absurd (by rw [ht, hb]; rfl) h1
      · rfl
    · intro hne
      cases hb : f.document_types.contains m.document_type
      · exfalso
        apply h2
        have hb0 : (f.document_types == []) = false := by
          simpa [beq_eq_false_iff_ne] using hne
        rw [hb0, hb]
        rfl
      · rfl
    · cases hb : f.exclude_types.contains m.document_type
      · rfl
      · exact absurd hb h3
    · intro hne
      cases hb : (f.required_topics.map strLower).any
          (fun t => (m.topics.map strLower).contains t)
      · exfalso
        apply h4
        have hb0 : (f.required_topics == []) = false := by
          simpa [beq_eq_false_iff_ne] using hne
        rw [hb0, hb]
        rfl
      · rfl
    · intro ht
      cases hb : m.is_fresh now (f.max_age_days.getD 0)
      · exact absurd (by rw [ht, hb]; rfl) h5
      · rfl
    · intro hlt
      exact absurd hlt (by omega)
  · rintro ⟨hA, hB, hC, hD, hE, hF, hG, hH⟩
    split_ifs with h1 h2 h3 h4 h5 h6 h7 h8
    · simp only [Bool.and_eq_true, Bool.not_eq_true'] at h1
      have := hA h1.1
      rw [h1.2] at this
      cases this
    · simp only [Bool.and_eq_true, Bool.not_eq_true'] at h2
      have hne : f.document_types ≠ [] := by
        intro he
        rw [he] at h2
        simpa using h2.1
      have := hB hne
      rw [h2.2] at this
      cases this
    · exact absurd h3 (by rw [hC]; simp)
    · simp only [Bool.and_eq_true, Bool.not_eq_true'] at h4
      have hne : f.required_topics ≠ [] := by
        intro he
        rw [he] at h4
        simpa using h4.1
      have := hD hne
      rw [h4.2] at this
      cases this
    · simp only [Bool.and_eq_true, Bool.not_eq_true'] at h5
      have := hE h5.1
      rw [h5.2] at this
      cases this
    · exact absurd h6 (not_lt.mpr hF)
    · exact absurd h7 (not_lt.mpr hG)
    · exact absurd h8 (by omega)
    · rfl

/-- C7 witness: the amended equivalence applied to a concrete criteria
and document (an always-passing pair). -/
theorem claim_C7_witness :
    FilterCriteria.matches_document { target_role := some "engineer" } mdPlain 0 = true :=
  (claim_C7_matches_document { target_role := some "engineer" } mdPlain 0).mpr
    (by refine ⟨?_, ?_, ?_, ?_, ?_, ?_, ?_, ?_⟩ <;> decide)

/-- Python dict lookup on an association list. -/
def lookupAssoc {α : Type} (l : List (String × α)) (k : String) : Option α :=
  (l.find? (fun p => p.1 == k)).map (fun p => p.2)

/-- One raw document record (`doc` dict) as stored by the retrievers. -/
structure DocRecord where
  id : String
  title : String
  content : String
  url : Option String := none
  file_path : Option String := none
  metadata : DocumentMetadata
  deriving DecidableEq, Repr

/-- `MetadataRetriever.__init__` state: the documents dict and the five
inverted indices (`collections.defaultdict(set)`). -/
structure MetadataRetrieverState where
  documents : List (String × DocRecord) := []
  topic_index : List (String × List String) := []
  keyword_index : List (String × List String) := []
  role_index : List (String × List String) := []
  department_index : List (String × List String) := []
  type_index : List (String × List String) := []
  deriving DecidableEq, Repr

/-- `defaultdict(set).__getitem__`: return the id-set bound to `k`,
inserting `k ↦ ∅` when `k` is absent. -/
def ddGet (idx : List (String × List String)) (k : String) :
    List String × List (String × List String) :=
  match idx.find? (fun p => p.1 == k) with
  | some p => (p.2, idx)
  | none => ([], idx ++ [(k, [])])

/-- The index after a `defaultdict` access, discarding the value. -/
def ddTouch (idx : List (String × List String)) (k : String) :
    List (String × List String) :=
  (ddGet idx k).2

/-- `type_matches.update(self.type_index[t])` accumulation over a term
list: union the retrieved id-sets, with each access a `defaultdict`
read. -/
def unionFold (terms : List String) (idx : List (String × List String))
    (acc : List String) : List String × List (String × List String) :=
  match terms with
  | [] => (acc, idx)
  | t :: rest =>
    let hit := ddGet idx t
    unionFold rest hit.2 (acc ++ hit.1)

/-- `filtered &= self.index[t]` over a term list. -/
def interFold (terms : List String) (idx : List (String × List String))
    (filtered : List String) : List String × List (String × List String) :=
  match terms with
  | [] => (filtered, idx)
  | t :: rest =>
    let hit := ddGet idx t
    interFold rest hit.2 (filtered.filter (fun x => hit.1.contains x))

/-- `filtered -= self.type_index[t]` over a term list. -/
def diffFold (terms : List String) (idx : List (String × List String))
    (filtered : List String) : List String × List (String × List String) :=
  match terms with
  | [] => (filtered, idx)
  | t :: rest =>
    let hit := ddGet idx t
    diffFold rest hit.2 (filtered.filter (fun x => !hit.1.contains x))

/-- `MetadataRetriever._apply_filters` (metadata_retriever.py lines
192-244): six index-driven narrowing steps — each reading the
defaultdict indices, hence inserting missing terms as empty entries —
followed by the per-document `matches_document` pass, which re-validates
each stored `DocumentMetadata`.  Candidate sets are modelled as lists in
documents-dict order. -/
def MetadataRetriever.apply_filters (st : MetadataRetrieverState)
    (candidates : List String) (filters : FilterCriteria) (now : Int) :
    Except Err (List String) × MetadataRetrieverState :=
  let step1 : List String × List (String × List String) :=
    if filters.document_types ≠ [] then
      let u := unionFold (filters.document_types.map (fun dt => dt.value)) st.type_index []
      (candidates.filter (fun x => u.1.contains x), u.2)
    else (candidates, st.type_index)
  let step2 : List String × List (String × List String) :=
    if filters.exclude_types ≠ [] then
      diffFold (filters.exclude_types.map (fun dt => dt.value)) step1.2 step1.1
    else step1
  let step3 : List String × List (String × List String) :=
    if optStrTruthy filters.target_role then
      let hit := ddGet st.role_index (strLower (filters.target_role.getD ""))
      (step2.1.filter (fun x => hit.1.contains x), hit.2)
    else (step2.1, st.role_index)
  let step4 : List String × List (String × List String) :=
    if optStrTruthy filters.department then
      let hit := ddGet st.department_index (strLower (filters.department.getD ""))
      (step3.1.filter (fun x => hit.1.contains x), hit.2)
    else (step3.1, st.department_index)
  let step5 : List String × List (String × List String) :=
    if filters.required_topics ≠ [] then
      interFold (filters.required_topics.map strLower) st.topic_index step4.1
    else (step4.1, st.topic_index)
  let step6 : List String × List (String × List String) :=
    if filters.keywords ≠ [] then
      interFold (filters.keywords.map strLower) st.keyword_index step5.1
    else (step5.1, st.keyword_index)
  let final : Except Err (List String) :=
    step6.1.foldlM (fun acc doc_id => do
      let doc ← match lookupAssoc st.documents doc_id with
        | some doc => pure doc
        | none => Except.error (.keyError doc_id)
      let md ← validateDocumentMetadata doc.metadata
      pure (if filters.matches_document md now then acc ++ [doc_id] else acc)) []
  (final,
   { st with
     type_index := step2.2
     role_index := step3.2
     department_index := step4.2
     topic_index := step5.2
     keyword_index := step6.2 })

/-- Python `needle in haystack` on strings (substring containment). -/
def strContains (haystack needle : String) : Bool :=
  haystack.toList.tails.any (fun t => needle.toList.isPrefixOf t)

/-- `MetadataRetriever._calculate_text_score`. -/
def MetadataRetriever.calculate_text_score (query_terms : List String)
    (doc : DocRecord) : ℚ :=
  let text := strLower (doc.title ++ " " ++ doc.content)
  if query_terms.length = 0 then 0
  else
    let match_count := query_terms.countP (fun term => strContains text term)
    let title_text := strLower doc.title
    let title_matches := query_terms.countP (fun term => strContains title_text term)
    min ((match_count : ℚ) / (query_terms.length : ℚ) +
         ((title_matches : ℚ) / (query_terms.length : ℚ)) * (5/10)) 1

/-- `MetadataRetriever._calculate_metadata_score`. -/
def MetadataRetriever.calculate_metadata_score (query_terms : List String)
    (md : DocumentMetadata) : ℚ :=
  if query_terms = [] then 0
  else
    let n : ℚ := query_terms.length
    let topics_text := strLower (String.intercalate " " md.topics)
    let score := ((query_terms.countP (fun t => strContains topics_text t) : ℚ) / n) * (4/10)
    let keywords_text := strLower (String.intercalate " " md.keywords)
    let score := score +
      ((query_terms.countP (fun t => strContains keywords_text t) : ℚ) / n) * (3/10)
    let score := score +
      (if optStrTruthy md.description then
        ((query_terms.countP
            (fun t => strContains (strLower (md.description.getD "")) t) : ℚ) / n) * (2/10)
       else 0)
    let tags_text := strLower (String.intercalate " " md.tags)
    let score := score +
      ((query_terms.countP (fun t => strContains tags_text t) : ℚ) / n) * (1/10)
    min score 1

/-- `MetadataRetriever._calculate_quality_score`. -/
def MetadataRetriever.calculate_quality_score (md : DocumentMetadata) (now : Int) : ℚ :=
  let quality := (md.importance_score + md.popularity_score) / 2
  let quality := quality +
    (if md.is_fresh now 90 then 1/10
     else if md.is_fresh now 365 then 5/100
     else 0)
  min quality 1

/-- The combined candidate score of `MetadataRetriever.retrieve` (lines
62-72): `0.4*text + 0.4*metadata + 0.2*quality` plus the filter
relevance boost when filters are given. -/
def MetadataRetriever.total_score (query_terms : List String)
    (filters : Option FilterCriteria) (doc : DocRecord) (now : Int) : ℚ :=
  let base := (4/10) * MetadataRetriever.calculate_text_score query_terms doc +
    (4/10) * MetadataRetriever.calculate_metadata_score query_terms doc.metadata +
    (2/10) * MetadataRetriever.calculate_quality_score doc.metadata now
  match filters with
  | some f => base + f.calculate_relevance_boost doc.metadata
  | none => base

/-- One iteration of the scoring loop of `MetadataRetriever.retrieve`
(lines 53-102): look the candidate up, re-validate its metadata, score
it and build the validated `SourceCitation` and `RetrievalResult`. -/
def MetadataRetriever.result_one (query_terms : List String)
    (filters : Option FilterCriteria) (documents : List (String × DocRecord))
    (now : Int) (doc_id : String) : Except Err RetrievalResult := do
  let doc ← match lookupAssoc documents doc_id with
    | some doc => pure doc
    | none => Except.error (.keyError doc_id)
  let md ← validateDocumentMetadata doc.metadata
  let text_score := MetadataRetriever.calculate_text_score query_terms doc
  let metadata_score := MetadataRetriever.calculate_metadata_score query_terms md
  let quality_score := MetadataRetriever.calculate_quality_score md now
  let total := MetadataRetriever.total_score query_terms filters doc now
  let source ← mkSourceCitation
    { source_id := doc_id, title := doc.title,
      document_type := md.document_type.value,
      url := doc.url, file_path := doc.file_path, department := md.department,
      role_relevance := md.target_roles, topics := md.topics,
      last_updated := md.last_updated, relevance_score := total,
      confidence_score := md.importance_score }
  pure { content := doc.content, source := source, relevance_score := total,
         metadata := [("text_score", .q text_score),
                      ("metadata_score", .q metadata_score),
                      ("quality_score", .q quality_score),
                      ("retriever_type", .s "metadata")] }

/-- The candidate-selection stage of `MetadataRetriever.retrieve`:
all document ids, narrowed by `_apply_filters` when filters are given. -/
def MetadataRetriever.candidate_stage (st : MetadataRetrieverState)
    (filters : Option FilterCriteria) (now : Int) :
    Except Err (List String) × MetadataRetrieverState :=
  match filters with
  | some f => MetadataRetriever.apply_filters st (st.documents.map (fun p => p.1)) f now
  | none => (.ok (st.documents.map (fun p => p.1)), st)

/-- `MetadataRetriever.retrieve` (metadata_retriever.py lines 26-106),
parametrized by the already extracted-and-expanded `query_terms` (the
regex tokenizer and the set-based `_expand_query_terms` live outside the
model; every score below depends only on the resulting term list).  The
state is returned alongside because the defaultdict index reads of
`_apply_filters` mutate it. -/
def MetadataRetriever.retrieve (st : MetadataRetrieverState)
    (query_terms : List String) (filters : Option FilterCriteria)
    (top_k : Nat) (now : Int) :
    Except Err (List RetrievalResult) × MetadataRetrieverState :=
  let stage := MetadataRetriever.candidate_stage st filters now
  match stage.1 with
  | .error e => (.error e, stage.2)
  | .ok cands =>
    if cands = [] then (.ok [], stage.2)
    else
      match cands.mapM
          (MetadataRetriever.result_one query_terms filters stage.2.documents now) with
      | .error e => (.error e, stage.2)
      | .ok scored_docs =>
        (.ok ((sortDescBy (fun r => r.relevance_score) scored_docs).take top_k), stage.2)

/-- The record returned by `MetadataRetriever.get_stats`. -/
structure MetadataStats where
  total_documents : Nat
  unique_topics : Nat
  unique_keywords : Nat
  unique_roles : Nat
  unique_departments : Nat
  document_types : Nat
  deriving DecidableEq, Repr

/-- `MetadataRetriever.get_stats` (metadata_retriever.py lines 362-372). -/
def MetadataRetriever.get_stats (st : MetadataRetrieverState) : MetadataStats :=
  { total_documents := st.documents.length,
    unique_topics := st.topic_index.length,
    unique_keywords := st.keyword_index.length,
    unique_roles := st.role_index.length,
    unique_departments := st.department_index.length,
    document_types := st.type_index.length }

@[simp] lemma except_ok_bind {α β : Type} (a : α) (f : α → Except Err β) :
    (Except.ok a : Except Err α) >>= f = f a := rfl

@[simp] lemma except_error_bind {α β : Type} (e : Err) (f : α → Except Err β) :
    (Except.error e : Except Err α) >>= f = .error e := rfl

@[simp] lemma except_pure_bind {α β : Type} (a : α) (f : α → Except Err β) :
    (pure a : Except Err α) >>= f = f a := rfl

lemma except_bind_ok {α β : Type} {x : Except Err α} {f : α → Except Err β} {b : β}
    (h : x >>= f = .ok b) : ∃ a, x = .ok a ∧ f a = .ok b := by
  cases x with
  | error e => exact Except.noConfusion h
  | ok a => exact ⟨a, rfl, h⟩

lemma mkSourceCitation_ok {c c' : SourceCitation} (h : mkSourceCitation c = .ok c') :
    c' = c ∧ 0 ≤ c.relevance_score ∧ c.relevance_score ≤ 1 := by
  unfold mkSourceCitation at h
  by_cases hc : 0 ≤ c.relevance_score ∧ c.relevance_score ≤ 1 ∧
      0 ≤ c.confidence_score ∧ c.confidence_score ≤ 1
  · rw [if_pos hc] at h
    injection h with h
    exact ⟨h.symm, hc.1, hc.2.1⟩
  · rw [if_neg hc] at h
    exact Except.noConfusion h

lemma validateDocumentMetadata_ok {m m' : DocumentMetadata}
    (h : validateDocumentMetadata m = .ok m') : m' = m := by
  unfold validateDocumentMetadata at h
  by_cases hc : 0 ≤ m.importance_score ∧ m.importance_score ≤ 1 ∧
      0 ≤ m.popularity_score ∧ m.popularity_score ≤ 1
  · rw [if_pos hc] at h
    injection h with h
    exact h.symm
  · rw [if_neg hc] at h
    exact Except.noConfusion h

lemma result_one_ok_bounds {query_terms : List String} {filters : Option FilterCriteria}
    {documents : List (String × DocRecord)} {now : Int} {doc_id : String}
    {r : RetrievalResult}
    (h : MetadataRetriever.result_one query_terms filters documents now doc_id = .ok r) :
    0 ≤ r.source.relevance_score ∧ r.source.relevance_score ≤ 1 := by
  unfold MetadataRetriever.result_one at h
  rcases hlk : lookupAssoc documents doc_id with _ | doc
  · rw [hlk] at h
    simp at h
  · rw [hlk] at h
    simp only [except_pure_bind] at h
    obtain ⟨md, hmd, h⟩ := except_bind_ok h
    obtain ⟨source, hsrc, h⟩ := except_bind_ok h
    injection h with h
    obtain ⟨hceq, h0, h1⟩ := mkSourceCitation_ok hsrc
    rw [← h]
    simp only [hceq]
    exact ⟨h0, h1⟩

lemma mapM_ok_mem {α β : Type} {f : α → Except Err β} :
    ∀ {l : List α} {out : List β}, l.mapM f = .ok out →
      ∀ b ∈ out, ∃ a ∈ l, f a = .ok b := by
  intro l
  induction l with
  | nil =>
    intro out h b hb
    injection h with h
    subst h
    cases hb
  | cons x t ih =>
    intro out h b hb
    rw [List.mapM_cons] at h
    obtain ⟨bx, hbx, h⟩ := except_bind_ok h
    obtain ⟨bs, hbs, h⟩ := except_bind_ok h
    injection h with h
    subst h
    rcases List.mem_cons.mp hb with rfl | hb
    · exact ⟨x, List.mem_cons_self x t, hbx⟩
    · obtain ⟨a, ha, hfa⟩ := ih hbs b hb
      exact ⟨a, List.mem_cons_of_mem x ha, hfa⟩

lemma mapM_error_of_mem {α β : Type} {f : α → Except Err β} :
    ∀ {l : List α} {a : α}, a ∈ l → (∃ e, f a = .error e) →
      ∃ e, l.mapM f = .error e := by
  intro l
  induction l with
  | nil => intro a ha _; cases ha
  | cons x t ih =>
    intro a ha he
    obtain ⟨e, hfe⟩ := he
    rcases List.mem_cons.mp ha with rfl | ha
    · exact ⟨e, by rw [List.mapM_cons, hfe]; rfl⟩
    · rcases hfx : f x with ex | bx
      · exact ⟨ex, by rw [List.mapM_cons, hfx]; rfl⟩
      · obtain ⟨e2, he2⟩ := ih ha ⟨e, hfe⟩
        exact ⟨e2, by rw [List.mapM_cons, hfx, he2]; rfl⟩

lemma result_one_error_of_gt {query_terms : List String} {filters : Option FilterCriteria}
    {documents : List (String × DocRecord)} {now : Int} {doc_id : String} {doc : DocRecord}
    (hl : lookupAssoc documents doc_id = some doc)
    (hgt : 1 < MetadataRetriever.total_score query_terms filters doc now) :
    ∃ e, MetadataRetriever.result_one query_terms filters documents now doc_id = .error e := by
  rcases hv : validateDocumentMetadata doc.metadata with e | md
  · exact ⟨e, by simp [MetadataRetriever.result_one, hl, hv]⟩
  · have hmdeq := validateDocumentMetadata_ok hv
    subst hmdeq
    refine ⟨.validationError "SourceCitation score out of range", ?_⟩
    simp only [MetadataRetriever.result_one, hl, except_ok_bind, except_pure_bind, hv]
    rw [mkSourceCitation]
    rw [if_neg ?_]
    · rfl
    · rintro ⟨-, h2, -⟩
      exact absurd hgt (not_lt.mpr h2)

/-- C9: every result the metadata retriever returns successfully carries
a citation whose relevance score lies in `[0, 1]` (the validated
`SourceCitation` constructor guarantees it), and whenever some candidate
that survives filtering scores `0.4*text + 0.4*metadata + 0.2*quality`
plus the filter boost above 1.0, the whole retrieve call raises a
validation error instead of returning that result. -/
theorem claim_C9_citation_bounds (st : MetadataRetrieverState)
    (query_terms : List String) (filters : Option FilterCriteria)
    (top_k : Nat) (now : Int) :
    (∀ results,
      (MetadataRetriever.retrieve st query_terms filters top_k now).1 = .ok results →
      ∀ r ∈ results, 0 ≤ r.source.relevance_score ∧ r.source.relevance_score ≤ 1) ∧
    (∀ cands doc_id doc,
      (MetadataRetriever.candidate_stage st filters now).1 = .ok cands →
      doc_id ∈ cands →
      lookupAssoc (MetadataRetriever.candidate_stage st filters now).2.documents doc_id =
        some doc →
      1 < MetadataRetriever.total_score query_terms filters doc now →
      ∃ e, (MetadataRetriever.retrieve st query_terms filters top_k now).1 = .error e) := by
  constructor
  · intro results hres r hr
    unfold MetadataRetriever.retrieve at hres
    simp only [] at hres
    rcases hstage : (MetadataRetriever.candidate_stage st filters now).1 with e | cands
    · rw [hstage] at hres
      simp at hres
    · rw [hstage] at hres
      simp only [] at hres
      by_cases hc : cands = []
      · rw [if_pos hc] at hres
        simp at hres
        subst hres
        cases hr
      · rw [if_neg hc] at hres
        rcases hm : cands.mapM (MetadataRetriever.result_one query_terms filters
            (MetadataRetriever.candidate_stage st filters now).2.documents now) with e | scored
        · rw [hm] at hres
          simp at hres
        · rw [hm] at hres
          simp at hres
          subst hres
          have hr2 : r ∈ sortDescBy (fun r => r.relevance_score) scored :=
            List.take_subset top_k _ hr
          have hr3 : r ∈ scored :=
            (sortDescBy_perm (fun r => r.relevance_score) scored).mem_iff.mp hr2
          obtain ⟨a, _, hfa⟩ := mapM_ok_mem hm r hr3
          exact result_one_ok_bounds hfa
  · intro cands doc_id doc hstage hmem hlook hgt
    obtain ⟨e1, he1⟩ := result_one_error_of_gt hlook hgt
    obtain ⟨e2, he2⟩ := mapM_error_of_mem hmem ⟨e1, he1⟩
    refine ⟨e2, ?_⟩
    unfold MetadataRetriever.retrieve
    simp only []
    rw [hstage]
    simp only []
    rw [if_neg (by intro hnil; rw [hnil] at hmem; cases hmem)]
    rw [he2]

/-- Document metadata whose every scoring axis saturates. -/
def mdBoost : DocumentMetadata :=
  { document_id := "d1", title := "Python Guide", document_type := .guide,
    description := some "python", topics := ["python"], keywords := ["python"],
    department := some "eng", target_roles := ["dev"],
    last_updated := some 0, importance_score := 1, popularity_score := 1,
    tags := ["python"] }

/-- The stored record for `mdBoost`. -/
def docBoost : DocRecord :=
  { id := "d1", title := "python guide", content := "python", metadata := mdBoost }

/-- A metadata retriever state holding `docBoost`, indexed consistently. -/
def stBoost : MetadataRetrieverState :=
  { documents := [("d1", docBoost)],
    topic_index := [("python", ["d1"])],
    keyword_index := [("python", ["d1"])],
    role_index := [("dev", ["d1"])],
    department_index := [("eng", ["d1"])],
    type_index := [("guide", ["d1"])] }

/-- Filters whose relevance boost pushes `docBoost` past 1.0. -/
def fBoost : FilterCriteria :=
  { target_role := some "dev", department := some "eng",
    preferred_topics := ["python"] }

/-- C9 witness: on `stBoost` the boosted candidate scores 1.4, and the
retrieve call indeed fails with a validation error. -/
theorem claim_C9_witness :
    ∃ e, (MetadataRetriever.retrieve stBoost ["python"] (some fBoost) 10 0).1 = .error e := by
  refine (claim_C9_citation_bounds stBoost ["python"] (some fBoost) 10 0).2
    ["d1"] "d1" docBoost rfl (by decide) rfl ?_
  simp +decide [MetadataRetriever.total_score, MetadataRetriever.calculate_text_score,
    MetadataRetriever.calculate_metadata_score, MetadataRetriever.calculate_quality_score,
    FilterCriteria.calculate_relevance_boost, docBoost, mdBoost, fBoost, strContains,
    strLower, DocumentMetadata.is_fresh, optStrTruthy, List.countP_cons, List.countP_nil]
  norm_num [min_def]

lemma lookupAssoc_eq_none_iff {α : Type} (l : List (String × α)) (k : String) :
    lookupAssoc l k = none ↔ l.find? (fun p => p.1 == k) = none := by
  unfold lookupAssoc
  cases l.find? (fun p => p.1 == k) <;> simp

lemma ddTouch_lookup_some (idx : List (String × List String)) (k k' : String)
    (v : List String) (h : lookupAssoc idx k' = some v) :
    lookupAssoc (ddTouch idx k) k' = some v := by
  unfold ddTouch ddGet
  cases hf : idx.find? (fun p => p.1 == k) with
  | some p => exact h
  | none =>
    unfold lookupAssoc at h ⊢
    rw [List.find?_append]
    cases hp : idx.find? (fun p => p.1 == k') with
    | some q => rw [hp] at h; simpa using h
    | none => rw [hp] at h; simp at h

lemma ddTouch_lookup_none (idx : List (String × List String)) (k k' : String)
    (hne : k' ≠ k) (h : lookupAssoc idx k' = none) :
    lookupAssoc (ddTouch idx k) k' = none := by
  unfold ddTouch ddGet
  cases hf : idx.find? (fun p => p.1 == k) with
  | some p => exact h
  | none =>
    rw [lookupAssoc_eq_none_iff] at h ⊢
    rw [List.find?_append, h]
    simp only [Option.none_or]
    rw [List.find?_cons_of_neg]
    · rfl
    · simpa using fun hh => hne hh.symm

lemma ddTouch_insert (idx : List (String × List String)) (k : String)
    (h : lookupAssoc idx k = none) :
    lookupAssoc (ddTouch idx k) k = some [] := by
  unfold ddTouch ddGet
  rw [lookupAssoc_eq_none_iff] at h
  rw [h]
  unfold lookupAssoc
  rw [List.find?_append, h]
  simp

lemma ddTouch_length_le (idx : List (String × List String)) (k : String) :
    idx.length ≤ (ddTouch idx k).length := by
  unfold ddTouch ddGet
  cases idx.find? (fun p => p.1 == k) <;> simp

lemma ddTouch_length_lt (idx : List (String × List String)) (k : String)
    (h : lookupAssoc idx k = none) :
    idx.length < (ddTouch idx k).length := by
  unfold ddTouch ddGet
  rw [lookupAssoc_eq_none_iff] at h
  rw [h]
  simp

lemma foldlTouch_lookup_some :
    ∀ (terms : List String) (idx : List (String × List String)) (k : String)
      (v : List String), lookupAssoc idx k = some v →
      lookupAssoc (terms.foldl ddTouch idx) k = some v := by
  intro terms
  induction terms with
  | nil => intro idx k v h; exact h
  | cons t rest ih =>
    intro idx k v h
    exact ih _ _ _ (ddTouch_lookup_some idx t k v h)

lemma foldlTouch_length_le :
    ∀ (terms : List String) (idx : List (String × List String)),
      idx.length ≤ (terms.foldl ddTouch idx).length := by
  intro terms
  induction terms with
  | nil => intro idx; exact Nat.le_refl _
  | cons t rest ih =>
    intro idx
    exact Nat.le_trans (ddTouch_length_le idx t) (ih _)

lemma foldlTouch_mem_insert :
    ∀ (terms : List String) (idx : List (String × List String)) (k : String),
      k ∈ terms → lookupAssoc idx k = none →
      lookupAssoc (terms.foldl ddTouch idx) k = some [] ∧
        idx.length < (terms.foldl ddTouch idx).length := by
  intro terms
  induction terms with
  | nil => intro idx k hk; cases hk
  | cons t rest ih =>
    intro idx k hk h
    by_cases hkt : k = t
    · subst hkt
      refine ⟨foldlTouch_lookup_some rest _ _ _ (ddTouch_insert idx k h), ?_⟩
      exact Nat.lt_of_lt_of_le (ddTouch_length_lt idx k h) (foldlTouch_length_le rest _)
    · have hk2 : k ∈ rest := by
        rcases List.mem_cons.mp hk with rfl | hk2
        · exact absurd rfl hkt
        · exact hk2
      have h2 := ddTouch_lookup_none idx t k hkt h
      obtain ⟨ha, hb⟩ := ih (ddTouch idx t) k hk2 h2
      exact ⟨ha, Nat.lt_of_le_of_lt (ddTouch_length_le idx t) hb⟩

lemma foldlTouch_none_or :
    ∀ (terms : List String) (idx : List (String × List String)) (k : String),
      lookupAssoc idx k = none →
      (lookupAssoc (terms.foldl ddTouch idx) k = none) ∨
      (lookupAssoc (terms.foldl ddTouch idx) k = some [] ∧
        idx.length < (terms.foldl ddTouch idx).length) := by
  intro terms
  induction terms with
  | nil => intro idx k h; exact Or.inl h
  | cons t rest ih =>
    intro idx k h
    by_cases hkt : k = t
    · subst hkt
      refine Or.inr ⟨foldlTouch_lookup_some rest _ _ _ (ddTouch_insert idx k h), ?_⟩
      exact Nat.lt_of_lt_of_le (ddTouch_length_lt idx k h) (foldlTouch_length_le rest _)
    · have h2 := ddTouch_lookup_none idx t k hkt h
      rcases ih (ddTouch idx t) k h2 with ha | ⟨ha, hb⟩
      · exact Or.inl ha
      · exact Or.inr ⟨ha, Nat.lt_of_le_of_lt (ddTouch_length_le idx t) hb⟩

lemma unionFold_snd :
    ∀ (terms : List String) (idx : List (String × List String)) (acc : List String),
      (unionFold terms idx acc).2 = terms.foldl ddTouch idx := by
  intro terms
  induction terms with
  | nil => intro idx acc; rfl
  | cons t rest ih => intro idx acc; simp only [unionFold, List.foldl_cons]; exact ih _ _

lemma interFold_snd :
    ∀ (terms : List String) (idx : List (String × List String)) (filtered : List String),
      (interFold terms idx filtered).2 = terms.foldl ddTouch idx := by
  intro terms
  induction terms with
  | nil => intro idx filtered; rfl
  | cons t rest ih => intro idx filtered; simp only [interFold, List.foldl_cons]; exact ih _ _

lemma diffFold_snd :
    ∀ (terms : List String) (idx : List (String × List String)) (filtered : List String),
      (diffFold terms idx filtered).2 = terms.foldl ddTouch idx := by
  intro terms
  induction terms with
  | nil => intro idx filtered; rfl
  | cons t rest ih => intro idx filtered; simp only [diffFold, List.foldl_cons]; exact ih _ _

lemma apply_filters_documents (st : MetadataRetrieverState) (c : List String)
    (f : FilterCriteria) (now : Int) :
    ((MetadataRetriever.apply_filters st c f now).2).documents = st.documents := rfl

lemma apply_filters_role_index (st : MetadataRetrieverState) (c : List String)
    (f : FilterCriteria) (now : Int) :
    ((MetadataRetriever.apply_filters st c f now).2).role_index =
      if optStrTruthy f.target_role then
        ddTouch st.role_index (strLower (f.target_role.getD ""))
      else st.role_index := by
  unfold MetadataRetriever.apply_filters ddTouch
  by_cases h : optStrTruthy f.target_role = true <;> simp [h]

lemma apply_filters_department_index (st : MetadataRetrieverState) (c : List String)
    (f : FilterCriteria) (now : Int) :
    ((MetadataRetriever.apply_filters st c f now).2).department_index =
      if optStrTruthy f.department then
        ddTouch st.department_index (strLower (f.department.getD ""))
      else st.department_index := by
  unfold MetadataRetriever.apply_filters ddTouch
  by_cases h : optStrTruthy f.department = true <;> simp [h]

lemma apply_filters_type_index (st : MetadataRetrieverState) (c : List String)
    (f : FilterCriteria) (now : Int) :
    ((MetadataRetriever.apply_filters st c f now).2).type_index =
      (if f.exclude_types ≠ [] then f.exclude_types.map (fun dt => dt.value)
       else []).foldl ddTouch
        ((if f.document_types ≠ [] then f.document_types.map (fun dt => dt.value)
          else []).foldl ddTouch st.type_index) := by
  unfold MetadataRetriever.apply_filters
  by_cases h1 : f.document_types ≠ [] <;> by_cases h2 : f.exclude_types ≠ [] <;>
    simp [h1, h2, unionFold_snd, diffFold_snd]

lemma apply_filters_topic_index (st : MetadataRetrieverState) (c : List String)
    (f : FilterCriteria) (now : Int) :
    ((MetadataRetriever.apply_filters st c f now).2).topic_index =
      (if f.required_topics ≠ [] then f.required_topics.map strLower
       else []).foldl ddTouch st.topic_index := by
  unfold MetadataRetriever.apply_filters
  by_cases h : f.required_topics ≠ [] <;> simp [h, interFold_snd]

lemma apply_filters_keyword_index (st : MetadataRetrieverState) (c : List String)
    (f : FilterCriteria) (now : Int) :
    ((MetadataRetriever.apply_filters st c f now).2).keyword_index =
      (if f.keywords ≠ [] then f.keywords.map strLower
       else []).foldl ddTouch st.keyword_index := by
  unfold MetadataRetriever.apply_filters
  by_cases h : f.keywords ≠ [] <;> simp [h, interFold_snd]

lemma retrieve_snd (st : MetadataRetrieverState) (qt : List String)
    (fo : Option FilterCriteria) (topk : Nat) (now : Int) :
    (MetadataRetriever.retrieve st qt fo topk now).2 =
      (MetadataRetriever.candidate_stage st fo now).2 := by
  unfold MetadataRetriever.retrieve
  simp only []
  rcases h : (MetadataRetriever.candidate_stage st fo now).1 with e | cands
  · rfl
  · by_cases hc : cands = []
    · simp only [if_pos hc]
    · simp only [if_neg hc]
      rcases hm : cands.mapM (MetadataRetriever.result_one qt fo
          (MetadataRetriever.candidate_stage st fo now).2.documents now) with e | sc
      · rfl
      · rfl

lemma foldl2Touch_insert (t1 t2 : List String) (idx : List (String × List String))
    (k : String) (hk : k ∈ t1 ∨ k ∈ t2) (h : lookupAssoc idx k = none) :
    lookupAssoc (t2.foldl ddTouch (t1.foldl ddTouch idx)) k = some [] ∧
      idx.length < (t2.foldl ddTouch (t1.foldl ddTouch idx)).length := by
  rcases hk with hk | hk
  · obtain ⟨ha, hb⟩ := foldlTouch_mem_insert t1 idx k hk h
    exact ⟨foldlTouch_lookup_some t2 _ _ _ ha,
      Nat.lt_of_lt_of_le hb (foldlTouch_length_le t2 _)⟩
  · rcases foldlTouch_none_or t1 idx k h with ha | ⟨ha, hb⟩
    · obtain ⟨hc, hd⟩ := foldlTouch_mem_insert t2 _ k hk ha
      exact ⟨hc, Nat.lt_of_le_of_lt (foldlTouch_length_le t1 idx) hd⟩
    · exact ⟨foldlTouch_lookup_some t2 _ _ _ ha,
        Nat.lt_of_lt_of_le hb (foldlTouch_length_le t2 _)⟩

lemma candidate_stage_some (st : MetadataRetrieverState) (f : FilterCriteria) (now : Int) :
    MetadataRetriever.candidate_stage st (some f) now =
      MetadataRetriever.apply_filters st (st.documents.map (fun p => p.1)) f now := rfl

/-- C10: a metadata retrieve never adds, removes or alters any stored
document record (and with no filters it leaves the whole state alone),
but a `FilterCriteria` naming a role, department, document type, topic
or keyword absent from the corresponding inverted index makes the
defaultdict lookup insert that (lowercased) term as a new key bound to
the empty id-set, strictly increasing the distinct-term count that
`get_stats` reports for that index. -/
theorem claim_C10_query_mutates_indices (st : MetadataRetrieverState)
    (query_terms : List String) (fo : Option FilterCriteria) (top_k : Nat) (now : Int) :
    (MetadataRetriever.retrieve st query_terms fo top_k now).2.documents = st.documents ∧
    (fo = none → (MetadataRetriever.retrieve st query_terms fo top_k now).2 = st) ∧
    (∀ f, fo = some f →
      ((optStrTruthy f.target_role = true →
        lookupAssoc st.role_index (strLower (f.target_role.getD "")) = none →
        lookupAssoc (MetadataRetriever.retrieve st query_terms fo top_k now).2.role_index
            (strLower (f.target_role.getD "")) = some [] ∧
          (MetadataRetriever.get_stats st).unique_roles <
            (MetadataRetriever.get_stats
              (MetadataRetriever.retrieve st query_terms fo top_k now).2).unique_roles) ∧
       (optStrTruthy f.department = true →
        lookupAssoc st.department_index (strLower (f.department.getD "")) = none →
        lookupAssoc
            (MetadataRetriever.retrieve st query_terms fo top_k now).2.department_index
            (strLower (f.department.getD "")) = some [] ∧
          (MetadataRetriever.get_stats st).unique_departments <
            (MetadataRetriever.get_stats
              (MetadataRetriever.retrieve st query_terms fo top_k now).2).unique_departments) ∧
       (∀ dt, (dt ∈ f.document_types ∨ dt ∈ f.exclude_types) →
        lookupAssoc st.type_index dt.value = none →
        lookupAssoc (MetadataRetriever.retrieve st query_terms fo top_k now).2.type_index
            dt.value = some [] ∧
          (MetadataRetriever.get_stats st).document_types <
            (MetadataRetriever.get_stats
              (MetadataRetriever.retrieve st query_terms fo top_k now).2).document_types) ∧
       (∀ t, t ∈ f.required_topics →
        lookupAssoc st.topic_index (strLower t) = none →
        lookupAssoc (MetadataRetriever.retrieve st query_terms fo top_k now).2.topic_index
            (strLower t) = some [] ∧
          (MetadataRetriever.get_stats st).unique_topics <
            (MetadataRetriever.get_stats
              (MetadataRetriever.retrieve st query_terms fo top_k now).2).unique_topics) ∧
       (∀ kw, kw ∈ f.keywords →
        lookupAssoc st.keyword_index (strLower kw) = none →
        lookupAssoc
            (MetadataRetriever.retrieve st query_terms fo top_k now).2.keyword_index
            (strLower kw) = some [] ∧
          (MetadataRetriever.get_stats st).unique_keywords <
            (MetadataRetriever.get_stats
              (MetadataRetriever.retrieve st query_terms fo top_k now).2).unique_keywords))) := by
  have hsnd := retrieve_snd st query_terms fo top_k now
  refine ⟨?_, ?_, ?_⟩
  · rw [hsnd]
    cases fo with
    | none => rfl
    | some f => exact apply_filters_documents st _ f now
  · intro h
    subst h
    rw [hsnd]
    rfl
  · intro f hf
    subst hf
    rw [hsnd, candidate_stage_some]
    simp only [MetadataRetriever.get_stats]
    refine ⟨?_, ?_, ?_, ?_, ?_⟩
    · intro ht hnone
      rw [apply_filters_role_index, if_pos ht]
      exact ⟨ddTouch_insert _ _ hnone, ddTouch_length_lt _ _ hnone⟩
    · intro ht hnone
      rw [apply_filters_department_index, if_pos ht]
      exact ⟨ddTouch_insert _ _ hnone, ddTouch_length_lt _ _ hnone⟩
    · intro dt hdt hnone
      rw [apply_filters_type_index]
      refine foldl2Touch_insert _ _ _ _ ?_ hnone
      rcases hdt with hdt | hdt
      · left
        rw [if_pos (by intro he; rw [he] at hdt; cases hdt)]
        exact List.mem_map.mpr ⟨dt, hdt, rfl⟩
      · right
        rw [if_pos (by intro he; rw [he] at hdt; cases hdt)]
        exact List.mem_map.mpr ⟨dt, hdt, rfl⟩
    · intro t ht hnone
      rw [apply_filters_topic_index]
      refine foldlTouch_mem_insert _ _ _ ?_ hnone
      rw [if_pos (by intro he; rw [he] at ht; cases ht)]
      exact List.mem_map.mpr ⟨t, ht, rfl⟩
    · intro kw hkw hnone
      rw [apply_filters_keyword_index]
      refine foldlTouch_mem_insert _ _ _ ?_ hnone
      rw [if_pos (by intro he; rw [he] at hkw; cases hkw)]
      exact List.mem_map.mpr ⟨kw, hkw, rfl⟩

/-- C10 witness: querying `stBoost` with a filter naming the absent role
`QA` inserts `qa ↦ ∅` into the role index and grows the stats count. -/
theorem claim_C10_witness :
    lookupAssoc (MetadataRetriever.retrieve stBoost ["python"]
        (some { target_role := some "QA" }) 10 0).2.role_index
      (strLower "QA") = some [] ∧
    (MetadataRetriever.get_stats stBoost).unique_roles <
      (MetadataRetriever.get_stats (MetadataRetriever.retrieve stBoost ["python"]
        (some { target_role := some "QA" }) 10 0).2).unique_roles :=
  ((claim_C10_query_mutates_indices stBoost ["python"]
      (some { target_role := some "QA" }) 10 0).2.2
    { target_role := some "QA" } rfl).1 (by decide) (by decide)

/-- Association-list lookup with integer keys (the semantic retriever's
`self.documents: Dict[int, ...]`). -/
def lookupSlot {α : Type} (l : List (Nat × α)) (k : Nat) : Option α :=
  (l.find? (fun p => p.1 == k)).map (fun p => p.2)

/-- `SemanticRetriever` state (semantic_retriever.py lines 32-50): the
embedding-model identity, the declared dimension, the FAISS flat
inner-product index (its stored vectors in slot order), the slot→record
map, the id→slot map and the next-slot counter.  The sentence
transformer itself and `faiss.normalize_L2` live outside the model:
documents and queries enter as their already encoded (and normalized)
vectors. -/
structure SemanticRetrieverState where
  model_name : String
  dimension : Nat
  index_vectors : List (List ℚ) := []
  documents : List (Nat × DocRecord) := []
  id_to_index : List (String × Nat) := []
  next_index : Nat := 0
  deriving DecidableEq, Repr

/-- `SemanticRetriever.__init__` with a flat index: empty storage. -/
def SemanticRetriever.init (model_name : String) (dimension : Nat) :
    SemanticRetrieverState :=
  { model_name := model_name, dimension := dimension }

/-- Inner product of two stored vectors. -/
def innerProduct : List ℚ → List ℚ → ℚ
  | [], _ => 0
  | _, [] => 0
  | a :: as, b :: bs => a * b + innerProduct as bs

/-- `faiss.IndexFlatIP.search`: the `k` stored slots with the highest
inner product against the query, scores descending (ties in slot
order). -/
def faissSearch (vectors : List (List ℚ)) (q : List ℚ) (k : Nat) :
    List (ℚ × Nat) :=
  (sortDescBy (fun p => p.1)
    (vectors.enum.map (fun p => (innerProduct q p.2, p.1)))).take k

/-- `SemanticRetriever.add_documents` (lines 129-176), documents paired
with their encoded, L2-normalized embeddings: append the vectors to the
index, store each record under slot `next_index + i`, point each id at
its slot and advance the counter. -/
def SemanticRetriever.add_documents (st : SemanticRetrieverState)
    (docs : List (DocRecord × List ℚ)) : SemanticRetrieverState :=
  if docs = [] then st
  else
    { st with
      index_vectors := st.index_vectors ++ docs.map (fun p => p.2)
      documents := (docs.enum.map (fun p => (st.next_index + p.1, p.2.1))).foldl
        (fun acc e => updEntry acc e.1 e.2) st.documents
      id_to_index := (docs.enum.map (fun p => (p.2.1.id, st.next_index + p.1))).foldl
        (fun acc e => updEntry acc e.1 e.2) st.id_to_index
      next_index := st.next_index + docs.length }

/-- `SemanticRetriever.delete_document` (lines 203-219): raise for an
unknown id, else remove the record and the id mapping — the FAISS index
keeps the deleted document's vector slot (the removal is an unresolved
`TODO` in the source). -/
def SemanticRetriever.delete_document (st : SemanticRetrieverState)
    (document_id : String) : Except Err SemanticRetrieverState :=
  match lookupAssoc st.id_to_index document_id with
  | none => .error (.valueError ("Document " ++ document_id ++ " not found in index"))
  | some idx =>
    .ok { st with
      documents := st.documents.filter (fun p => !(p.1 == idx))
      id_to_index := st.id_to_index.filter (fun p => !(p.1 == document_id)) }

/-- `SemanticRetriever.retrieve` (lines 52-127), the query given as its
encoded, normalized vector: search the FAISS index for
`min(top_k*3, len(documents))` neighbors, then look each returned slot
up in `self.documents` — a `KeyError` if the slot's record was deleted —
filter, build validated citations, add the relevance boost, sort and
truncate. -/
def SemanticRetriever.retrieve (st : SemanticRetrieverState) (query_vec : List ℚ)
    (filters : Option FilterCriteria) (top_k : Nat)
    (similarity_threshold : ℚ) (now : Int) : Except Err (List RetrievalResult) :=
  let search_k := min (top_k * 3) st.documents.length
  if search_k = 0 then .ok []
  else do
    let hits := faissSearch st.index_vectors query_vec search_k
    let results ← hits.foldlM (fun acc hit => do
      if hit.1 < similarity_threshold then
        pure acc
      else do
        let doc_data ← match lookupSlot st.documents hit.2 with
          | some d => pure d
          | none => Except.error (.keyErrorSlot hit.2)
        let md ← validateDocumentMetadata doc_data.metadata
        match filters with
        | some f =>
          if !(f.matches_document md now) then
            pure acc
          else do
            let source ← mkSourceCitation
              { source_id := doc_data.id, title := doc_data.title,
                document_type := md.document_type.value,
                url := doc_data.url, file_path := doc_data.file_path,
                department := md.department, role_relevance := md.target_roles,
                topics := md.topics, last_updated := md.last_updated,
                relevance_score := (hit.1), confidence_score := md.importance_score }
            let relevance_boost := f.calculate_relevance_boost md
            let result : RetrievalResult :=
              { content := doc_data.content, source := source,
                relevance_score := hit.1 + relevance_boost,
                metadata := [("original_score", .q hit.1),
                             ("relevance_boost", .q relevance_boost),
                             ("retriever_type", .s "semantic")] }
            pure (acc ++ [result])
        | none => do
          let source ← mkSourceCitation
            { source_id := doc_data.id, title := doc_data.title,
              document_type := md.document_type.value,
              url := doc_data.url, file_path := doc_data.file_path,
              department := md.department, role_relevance := md.target_roles,
              topics := md.topics, last_updated := md.last_updated,
              relevance_score := (hit.1), confidence_score := md.importance_score }
          let result : RetrievalResult :=
            { content := doc_data.content, source := source,
              relevance_score := hit.1 + 0,
              metadata := [("original_score", .q hit.1),
                           ("relevance_boost", .q (0 : ℚ)),
                           ("retriever_type", .s "semantic")] }
          pure (acc ++ [result])) []
    pure ((sortDescBy (fun r => r.relevance_score) results).take top_k)

/-- The two artifacts `save_index` writes: the serialized FAISS index
(`{filepath}.faiss`) and the JSON sidecar with the slot→record map, the
id→slot map, the counter, the model identity and the dimension. -/
structure SavedIndex where
  faiss_vectors : List (List ℚ)
  documents : List (Nat × DocRecord)
  id_to_index : List (String × Nat)
  next_index : Nat
  model_name : String
  dimension : Nat
  deriving DecidableEq, Repr

/-- `SemanticRetriever.save_index` (lines 232-243). -/
def SemanticRetriever.save_index (st : SemanticRetrieverState) : SavedIndex :=
  { faiss_vectors := st.index_vectors, documents := st.documents,
    id_to_index := st.id_to_index, next_index := st.next_index,
    model_name := st.model_name, dimension := st.dimension }

/-- `SemanticRetriever.load_index` (lines 245-258): restore the FAISS
index, the two maps and the counter from the files, and switch the model
identity when it differs (so it always equals the saved name) — but the
sidecar's `dimension` entry is never read back: the loading retriever
keeps its own `self.dimension`. -/
def SemanticRetriever.load_index (st : SemanticRetrieverState) (data : SavedIndex) :
    SemanticRetrieverState :=
  { st with
    index_vectors := data.faiss_vectors
    documents := data.documents
    id_to_index := data.id_to_index
    next_index := data.next_index
    model_name := data.model_name }

/-- C8 counterexample: a retriever constructed with dimension 512
loading an index saved from a retriever with dimension 384 keeps
dimension 512 — `load_index` never reads the sidecar's saved
`dimension` back, so one persisted component is not restored. -/
theorem claim_C8_counterexample :
    (SemanticRetriever.load_index (SemanticRetriever.init "all-MiniLM-L6-v2" 512)
        (SemanticRetriever.save_index (SemanticRetriever.init "all-MiniLM-L6-v2" 384))).dimension ≠
      (SemanticRetriever.save_index
        (SemanticRetriever.init "all-MiniLM-L6-v2" 384)).dimension := by
  decide

/-- C8 (amended): `save_index` followed by `load_index` on a fresh
retriever restores the slot→record map, the id→slot map, the next-slot
counter, the embedding-model identity and the serialized index vectors
to the saved values; the dimension alone is written to the sidecar but
not read back — the loading retriever keeps its constructor-time
dimension. -/
theorem claim_C8_save_load_roundtrip (st fresh : SemanticRetrieverState) :
    (SemanticRetriever.load_index fresh (SemanticRetriever.save_index st)).documents =
      st.documents ∧
    (SemanticRetriever.load_index fresh (SemanticRetriever.save_index st)).id_to_index =
      st.id_to_index ∧
    (SemanticRetriever.load_index fresh (SemanticRetriever.save_index st)).next_index =
      st.next_index ∧
    (SemanticRetriever.load_index fresh (SemanticRetriever.save_index st)).model_name =
      st.model_name ∧
    (SemanticRetriever.load_index fresh (SemanticRetriever.save_index st)).index_vectors =
      st.index_vectors ∧
    (SemanticRetriever.load_index fresh (SemanticRetriever.save_index st)).dimension =
      fresh.dimension ∧
    (SemanticRetriever.save_index st).dimension = st.dimension :=
  ⟨rfl, rfl, rfl, rfl, rfl, rfl, rfl⟩

/-- Metadata for the first indexed document. -/
def mdD1 : DocumentMetadata :=
  { document_id := "d1", title := "Doc One", document_type := .guide }

/-- Metadata for the second indexed document. -/
def mdD2 : DocumentMetadata :=
  { document_id := "d2", title := "Doc Two", document_type := .guide }

/-- First stored record. -/
def docD1 : DocRecord := { id := "d1", title := "Doc One", content := "c1", metadata := mdD1 }

/-- Second stored record. -/
def docD2 : DocRecord := { id := "d2", title := "Doc Two", content := "c2", metadata := mdD2 }

/-- Two documents indexed at slots 0 and 1 with unit embeddings. -/
def stTwo : SemanticRetrieverState :=
  SemanticRetriever.add_documents (SemanticRetriever.init "m" 2)
    [(docD1, [1, 0]), (docD2, [0, 1])]

/-- The state after deleting `d1`: its record and id mapping are gone,
but its vector still occupies FAISS slot 0. -/
def stDel : SemanticRetrieverState :=
  { model_name := "m", dimension := 2, index_vectors := [[1, 0], [0, 1]],
    documents := [(1, docD2)], id_to_index := [("d2", 1)], next_index := 2 }

deriving instance DecidableEq for Except

/-- C4: after `delete_document("d1")` succeeds, the FAISS index still
returns the deleted document's vector slot (slot 0) as the nearest
neighbor of a later query, and the scoring loop's
`self.documents[idx]` lookup then raises a `KeyError` — the semantic
query fails because of the dangling index entry, contradicting the
claim that deletion leaves no dangling reference and that later
queries must not fail. -/
theorem claim_C4_dangling_slot :
    SemanticRetriever.delete_document stTwo "d1" = .ok stDel ∧
    SemanticRetriever.retrieve stDel [1, 0] none 1 0 0 = .error (.keyErrorSlot 0) := by
  constructor
  · decide
  · have hsearch : faissSearch [[1, 0], [0, 1]] [1, 0] 1 = [(1, 0)] := by
      norm_num [faissSearch, innerProduct, sortDescBy, insertDescBy, List.enum]
    simp only [SemanticRetriever.retrieve, stDel]
    norm_num [hsearch, lookupSlot, List.foldlM]
